import Mathlib

/-!
Shallow embedding of the network-area-diagram geometry engine of
powsybl-network-viewer (packages/network-viewer-core/src/network-area-diagram-viewer).

JavaScript numbers are modelled by real numbers (`ℝ`); the geometric
primitives (`Math.hypot`, `Math.atan2`, trigonometry) are modelled by their
exact real counterparts.  Fallible lookups (`find` returning `undefined`)
are modelled by `Option`.  `NaN` produced by a zero denominator in
`getSquareDistanceFromSegment` is modelled by `Option ℝ` (a `NaN` distance
never compares `<` in JavaScript, so it can never be selected as a minimum).
String formatting of path data (`toFixed`) is abstracted away: an SVG arc
command is modelled by the record of arguments handed to `getCirclePath`.
-/

namespace Nad

/-- Coordinates of `Point` from svg.js: a plain (x, y) pair. -/
structure Point where
  x : ℝ
  y : ℝ

/-- `PointMetadata` of diagram-metadata: a plain (x, y) record stored in the
metadata document (bending points, and the boundary points temporarily added
by `addPointToList`). -/
structure PointMetadata where
  x : ℝ
  y : ℝ

/-- `new Point(p.x, p.y)` applied to a `PointMetadata` record. -/
def toPoint (p : PointMetadata) : Point :=
  ⟨p.x, p.y⟩

/-- `BusNodeMetadata` of diagram-metadata (the fields used by the geometry
engine).  Indices and neighbour counts are modelled as naturals, matching the
documented metadata invariant that `index` is a dense 0-based slot. -/
structure BusNodeMetadata where
  svgId : String
  equipmentId : String
  nbNeighbours : ℕ
  index : ℕ
  vlNode : String

/-- `NodeMetadata` of diagram-metadata (the fields used by the geometry
engine).  `fictitious` is an optional boolean in the metadata document. -/
structure NodeMetadata where
  svgId : String
  equipmentId : String
  x : ℝ
  y : ℝ
  fictitious : Option Bool

/-- The edge-info reference carried by an edge side (only its `svgId` is read
by the half-edge engine). -/
structure EdgeInfoMetadata where
  svgId : String

/-- `EdgeMetadata` of diagram-metadata (the fields used by the geometry
engine). -/
structure EdgeMetadata where
  svgId : String
  equipmentId : String
  node1 : String
  node2 : String
  busNode1 : String
  busNode2 : String
  type : Option String
  bendingPoints : Option (List PointMetadata)
  edgeInfo1 : Option EdgeInfoMetadata
  edgeInfo2 : Option EdgeInfoMetadata
  invisible1 : Option Bool
  invisible2 : Option Bool

/-- The metadata document (the collections used by the geometry engine). -/
structure DiagramMetadata where
  busNodes : List BusNodeMetadata
  nodes : List NodeMetadata
  edges : List EdgeMetadata

/-- `NodeRadius` of diagram-types. -/
structure NodeRadius where
  busInnerRadius : ℝ
  busOuterRadius : ℝ
  voltageLevelRadius : ℝ

/-- `HalfEdge` of diagram-types. -/
structure HalfEdge where
  side : String
  fork : Bool
  busOuterRadius : ℝ
  voltageLevelRadius : ℝ
  edgeInfoId : Option String
  edgePoints : List Point

/-- `EdgeType` of diagram-types. -/
inductive EdgeType where
  | LINE
  | TWO_WINDINGS_TRANSFORMER
  | PHASE_SHIFT_TRANSFORMER
  | HVDC_LINE_VSC
  | HVDC_LINE_LCC
  | DANGLING_LINE
  | TIE_LINE
  | THREE_WINDINGS_TRANSFORMER
  | THREE_WINDINGS_PHASE_SHIFT_TRANSFORMER
  | UNKNOWN
deriving DecidableEq

/-- `EdgeTypeMapping` of svg-utils: a string-keyed lookup that is undefined on
unrecognized type strings (modelled by `Option`). -/
def EdgeTypeMapping : String → Option EdgeType
  | "LineEdge" => some .LINE
  | "TwoWtEdge" => some .TWO_WINDINGS_TRANSFORMER
  | "PstEdge" => some .PHASE_SHIFT_TRANSFORMER
  | "HvdcLineVscEdge" => some .HVDC_LINE_VSC
  | "HvdcLineLccEdge" => some .HVDC_LINE_LCC
  | "DanglingLineEdge" => some .DANGLING_LINE
  | "TieLineEdge" => some .TIE_LINE
  | "ThreeWtEdge" => some .THREE_WINDINGS_TRANSFORMER
  | "ThreeWtPstEdge" => some .THREE_WINDINGS_PHASE_SHIFT_TRANSFORMER
  | _ => none

/-- `getEdgeType` of svg-utils: `UNKNOWN` when the metadata has no type, and
the (possibly undefined) mapping of the type string otherwise. -/
def getEdgeType (edge : EdgeMetadata) : Option EdgeType :=
  match edge.type with
  | none => some .UNKNOWN
  | some t => EdgeTypeMapping t

/-- Optional diagram-padding configuration record. -/
structure DiagramPaddingMetadata where
  left : Option ℝ
  top : Option ℝ
  right : Option ℝ
  bottom : Option ℝ

/-- The resolved diagram padding returned by `getDiagramPadding`. -/
structure DiagramPadding where
  left : ℝ
  top : ℝ
  right : ℝ
  bottom : ℝ

/-- `CssLocationEnum` of svg-parameters. -/
inductive CssLocationEnum where
  | INSERTED_IN_SVG
  | EXTERNAL_IMPORTED
  | EXTERNAL_NO_IMPORT
deriving DecidableEq

/-- `CssLocationEnumMapping` of svg-parameters (undefined on other strings). -/
def CssLocationEnumMapping : String → Option CssLocationEnum
  | "INSERTED_IN_SVG" => some .INSERTED_IN_SVG
  | "EXTERNAL_IMPORTED" => some .EXTERNAL_IMPORTED
  | "EXTERNAL_NO_IMPORT" => some .EXTERNAL_NO_IMPORT
  | _ => none

/-- `SvgParametersMetadata` of diagram-metadata: the optional configuration
record read by the `SvgParameters` accessors. -/
structure SvgParametersMetadata where
  voltageLevelCircleRadius : Option ℝ
  interAnnulusSpace : Option ℝ
  transformerCircleRadius : Option ℝ
  edgesForkAperture : Option ℝ
  edgesForkLength : Option ℝ
  arrowShift : Option ℝ
  arrowLabelShift : Option ℝ
  arrowPathIn : Option String
  arrowPathOut : Option String
  converterStationWidth : Option ℝ
  nodeHollowWidth : Option ℝ
  unknownBusNodeExtraRadius : Option ℝ
  fictitiousVoltageLevelCircleRadius : Option ℝ
  powerValuePrecision : Option ℝ
  currentValuePrecision : Option ℝ
  angleValuePrecision : Option ℝ
  voltageValuePrecision : Option ℝ
  diagramPadding : DiagramPaddingMetadata
  cssLocation : Option String

/-- `degToRad` of diagram-utils. -/
noncomputable def degToRad (deg : ℝ) : ℝ :=
  deg * (Real.pi / 180)

/-- `radToDeg` of diagram-utils. -/
noncomputable def radToDeg (rad : ℝ) : ℝ :=
  rad * 180 / Real.pi

/-- The `SvgParameters` class: typed accessors over an optional
configuration, with the class's named default constants. -/
structure SvgParameters where
  svgParametersMetadata : Option SvgParametersMetadata

def SvgParameters.VOLTAGE_LEVEL_CIRCLE_RADIUS_DEFAULT : ℝ := 30
def SvgParameters.INTER_ANNULUS_SPACE_DEFAULT : ℝ := 5
def SvgParameters.TRANSFORMER_CIRCLE_RADIUS_DEFAULT : ℝ := 20
def SvgParameters.EDGES_FORK_APERTURE_DEFAULT : ℝ := 60
def SvgParameters.EDGES_FORK_LENGTH_DEFAULT : ℝ := 80
def SvgParameters.ARROW_SHIFT_DEFAULT : ℝ := 30
def SvgParameters.ARROW_LABEL_SHIFT_DEFAULT : ℝ := 19
def SvgParameters.CONVERTER_STATION_WIDTH_DEFAULT : ℝ := 70
def SvgParameters.NODE_HOLLOW_WIDTH_DEFAULT : ℝ := 15
def SvgParameters.UNKNOWN_BUS_NODE_EXTRA_RADIUS_DEFAULT : ℝ := 10
def SvgParameters.FICTITIOUS_VOLTAGE_LEVEL_CIRCLE_RADIUS_DEFAULT : ℝ := 15
def SvgParameters.POWER_VALUE_PRECISION_RADIUS_DEFAULT : ℝ := 0
def SvgParameters.CURRENT_VALUE_PRECISION_DEFAULT : ℝ := 0
def SvgParameters.ANGLE_VALUE_PRECISION_DEFAULT : ℝ := 1
def SvgParameters.VOLTAGE_VALUE_PRECISION_DEFAULT : ℝ := 1
def SvgParameters.DIAGRAM_PADDING_LEFT_DEFAULT : ℝ := 200
def SvgParameters.DIAGRAM_PADDING_TOP_DEFAULT : ℝ := 200
def SvgParameters.DIAGRAM_PADDING_RIGHT_DEFAULT : ℝ := 200
def SvgParameters.DIAGRAM_PADDING_BOTTON_DEFAULT : ℝ := 200
def SvgParameters.CSS_LOCATION_DEFAULT : CssLocationEnum := .EXTERNAL_NO_IMPORT
def SvgParameters.ARROW_PATH_IN_DEFAULT : String := "M-10 -10 H10 L0 10z"
def SvgParameters.ARROW_PATH_OUT_DEFAULT : String := "M-10 10 H10 L0 -10z"

def SvgParameters.getVoltageLevelCircleRadius (self : SvgParameters) : ℝ :=
  (self.svgParametersMetadata.bind (·.voltageLevelCircleRadius)).getD
    SvgParameters.VOLTAGE_LEVEL_CIRCLE_RADIUS_DEFAULT

def SvgParameters.getInterAnnulusSpace (self : SvgParameters) : ℝ :=
  (self.svgParametersMetadata.bind (·.interAnnulusSpace)).getD
    SvgParameters.INTER_ANNULUS_SPACE_DEFAULT

def SvgParameters.getTransformerCircleRadius (self : SvgParameters) : ℝ :=
  (self.svgParametersMetadata.bind (·.transformerCircleRadius)).getD
    SvgParameters.TRANSFORMER_CIRCLE_RADIUS_DEFAULT

/-- `getEdgesForkAperture`: the configured (or default) aperture is stored in
degrees and returned converted to radians. -/
noncomputable def SvgParameters.getEdgesForkAperture (self : SvgParameters) : ℝ :=
  degToRad ((self.svgParametersMetadata.bind (·.edgesForkAperture)).getD
    SvgParameters.EDGES_FORK_APERTURE_DEFAULT)

def SvgParameters.getEdgesForkLength (self : SvgParameters) : ℝ :=
  (self.svgParametersMetadata.bind (·.edgesForkLength)).getD
    SvgParameters.EDGES_FORK_LENGTH_DEFAULT

def SvgParameters.getArrowShift (self : SvgParameters) : ℝ :=
  (self.svgParametersMetadata.bind (·.arrowShift)).getD
    SvgParameters.ARROW_SHIFT_DEFAULT

def SvgParameters.getArrowLabelShift (self : SvgParameters) : ℝ :=
  (self.svgParametersMetadata.bind (·.arrowLabelShift)).getD
    SvgParameters.ARROW_LABEL_SHIFT_DEFAULT

def SvgParameters.getArrowPathIn (self : SvgParameters) : String :=
  (self.svgParametersMetadata.bind (·.arrowPathIn)).getD
    SvgParameters.ARROW_PATH_IN_DEFAULT

def SvgParameters.getArrowPathOut (self : SvgParameters) : String :=
  (self.svgParametersMetadata.bind (·.arrowPathOut)).getD
    SvgParameters.ARROW_PATH_OUT_DEFAULT

def SvgParameters.getConverterStationWidth (self : SvgParameters) : ℝ :=
  (self.svgParametersMetadata.bind (·.converterStationWidth)).getD
    SvgParameters.CONVERTER_STATION_WIDTH_DEFAULT

def SvgParameters.getNodeHollowWidth (self : SvgParameters) : ℝ :=
  (self.svgParametersMetadata.bind (·.nodeHollowWidth)).getD
    SvgParameters.NODE_HOLLOW_WIDTH_DEFAULT

def SvgParameters.getUnknownBusNodeExtraRadius (self : SvgParameters) : ℝ :=
  (self.svgParametersMetadata.bind (·.unknownBusNodeExtraRadius)).getD
    SvgParameters.UNKNOWN_BUS_NODE_EXTRA_RADIUS_DEFAULT

def SvgParameters.getFictitiousVoltageLevelCircleRadius (self : SvgParameters) : ℝ :=
  (self.svgParametersMetadata.bind (·.fictitiousVoltageLevelCircleRadius)).getD
    SvgParameters.FICTITIOUS_VOLTAGE_LEVEL_CIRCLE_RADIUS_DEFAULT

def SvgParameters.getPowerValuePrecision (self : SvgParameters) : ℝ :=
  (self.svgParametersMetadata.bind (·.powerValuePrecision)).getD
    SvgParameters.POWER_VALUE_PRECISION_RADIUS_DEFAULT

def SvgParameters.getCurrentValuePrecision (self : SvgParameters) : ℝ :=
  (self.svgParametersMetadata.bind (·.currentValuePrecision)).getD
    SvgParameters.CURRENT_VALUE_PRECISION_DEFAULT

def SvgParameters.getAngleValuePrecision (self : SvgParameters) : ℝ :=
  (self.svgParametersMetadata.bind (·.angleValuePrecision)).getD
    SvgParameters.ANGLE_VALUE_PRECISION_DEFAULT

def SvgParameters.getVoltageValuePrecision (self : SvgParameters) : ℝ :=
  (self.svgParametersMetadata.bind (·.voltageValuePrecision)).getD
    SvgParameters.VOLTAGE_VALUE_PRECISION_DEFAULT

def SvgParameters.getDiagramPadding (self : SvgParameters) : DiagramPadding :=
  { left := (self.svgParametersMetadata.bind (·.diagramPadding.left)).getD
      SvgParameters.DIAGRAM_PADDING_LEFT_DEFAULT
    top := (self.svgParametersMetadata.bind (·.diagramPadding.top)).getD
      SvgParameters.DIAGRAM_PADDING_TOP_DEFAULT
    right := (self.svgParametersMetadata.bind (·.diagramPadding.right)).getD
      SvgParameters.DIAGRAM_PADDING_RIGHT_DEFAULT
    bottom := (self.svgParametersMetadata.bind (·.diagramPadding.bottom)).getD
      SvgParameters.DIAGRAM_PADDING_BOTTON_DEFAULT }

/-- `getCssLocation`: a falsy (absent or empty) configured location yields the
default; otherwise the configured string is looked up in the (partial)
mapping, which is undefined on unrecognized strings. -/
def SvgParameters.getCssLocation (self : SvgParameters) : Option CssLocationEnum :=
  match self.svgParametersMetadata.bind (·.cssLocation) with
  | some s => if s = "" then some SvgParameters.CSS_LOCATION_DEFAULT else CssLocationEnumMapping s
  | none => some SvgParameters.CSS_LOCATION_DEFAULT

/-- `getDistance` of diagram-utils: `Math.hypot` of the coordinate deltas. -/
noncomputable def getDistance (point1 point2 : Point) : ℝ :=
  Real.sqrt ((point1.x - point2.x) ^ 2 + (point1.y - point2.y) ^ 2)

/-- `round` of diagram-utils: `Math.round(num * 100) / 100` (JavaScript
`Math.round` rounds half towards positive infinity). -/
noncomputable def round (num : ℝ) : ℝ :=
  (⌊num * 100 + 1 / 2⌋ : ℝ) / 100

/-- `getMidPosition` of diagram-utils. -/
noncomputable def getMidPosition (point1 point2 : Point) : Point :=
  ⟨0.5 * (point1.x + point2.x), 0.5 * (point1.y + point2.y)⟩

/-- `getPointAtDistance` of diagram-utils: the point at the given distance
from `point1` in the direction of `point2`. -/
noncomputable def getPointAtDistance (point1 point2 : Point) (radius : ℝ) : Point :=
  let distance := getDistance point1 point2
  let r := radius / distance
  ⟨point1.x + r * (point2.x - point1.x), point1.y + r * (point2.y - point1.y)⟩

/-- `Math.atan2` (the JavaScript four-quadrant arctangent). -/
noncomputable def atan2 (y x : ℝ) : ℝ :=
  if 0 < x then Real.arctan (y / x)
  else if x < 0 then
    (if 0 ≤ y then Real.arctan (y / x) + Real.pi else Real.arctan (y / x) - Real.pi)
  else if 0 < y then Real.pi / 2
  else if y < 0 then -(Real.pi / 2)
  else 0

/-- `getAngle` of diagram-utils. -/
noncomputable def getAngle (point1 point2 : Point) : ℝ :=
  atan2 (point2.y - point1.y) (point2.x - point1.x)

/-- `getEdgeFork` of diagram-utils. -/
noncomputable def getEdgeFork (point : Point) (edgeForkLength angleFork : ℝ) : Point :=
  ⟨point.x + edgeForkLength * Real.cos angleFork, point.y + edgeForkLength * Real.sin angleFork⟩

/-- `getVoltageLevelCircleRadius` of diagram-utils: the base radius (chosen
by the fictitious flag, absent meaning falsy) scaled by
`Math.min(Math.max(nbNeighbours + 1, 1), 2)`. -/
noncomputable def getVoltageLevelCircleRadius (nbNeighbours : ℕ) (fictitiousVl : Option Bool)
    (svgParameters : SvgParameters) : ℝ :=
  let voltageLevelCircleRadius :=
    if fictitiousVl.getD false then svgParameters.getFictitiousVoltageLevelCircleRadius
    else svgParameters.getVoltageLevelCircleRadius
  min (max ((nbNeighbours : ℝ) + 1) 1) 2 * voltageLevelCircleRadius

/-- `isTransformerEdge` of diagram-utils. -/
def isTransformerEdge (edgeType : EdgeType) : Bool :=
  edgeType = EdgeType.TWO_WINDINGS_TRANSFORMER ∨ edgeType = EdgeType.PHASE_SHIFT_TRANSFORMER

/-- `getNodeRadius` of the metadata utilities: inner and outer annulus radii
of a bus node and the radius of its voltage-level circle. -/
noncomputable def getNodeRadius (busNode : Option BusNodeMetadata) (node : Option NodeMetadata)
    (svgParameters : SvgParameters) : NodeRadius :=
  let nbNeighbours := (busNode.map (·.nbNeighbours)).getD 0
  let busIndex := (busNode.map (·.index)).getD 0
  let vlCircleRadius := getVoltageLevelCircleRadius nbNeighbours (node.bind (·.fictitious)) svgParameters
  let interAnnulusSpace := svgParameters.getInterAnnulusSpace
  let unitaryRadius := vlCircleRadius / ((nbNeighbours : ℝ) + 1)
  { busInnerRadius := if busIndex = 0 then 0 else (busIndex : ℝ) * unitaryRadius + interAnnulusSpace / 2
    busOuterRadius := ((busIndex : ℝ) + 1) * unitaryRadius - interAnnulusSpace / 2
    voltageLevelRadius := vlCircleRadius }

/-- `getGroupedEdgesIndexKey` of the metadata utilities: a key that does not
depend on the order of `node1` and `node2` (string comparison). -/
def getGroupedEdgesIndexKey (edge : EdgeMetadata) : String :=
  if edge.node1 < edge.node2 then edge.node1 ++ "_" ++ edge.node2
  else edge.node2 ++ "_" ++ edge.node1

/-- `getBusNodeMetadata` of the metadata utilities. -/
def getBusNodeMetadata (busNodeId : String) (diagramMetadata : Option DiagramMetadata) :
    Option BusNodeMetadata :=
  diagramMetadata.bind (fun dm => dm.busNodes.find? (fun busNode => busNode.svgId == busNodeId))

/-- `getNodeMetadata` of the metadata utilities. -/
def getNodeMetadata (nodeId : String) (diagramMetadata : Option DiagramMetadata) :
    Option NodeMetadata :=
  diagramMetadata.bind (fun dm => dm.nodes.find? (fun node => node.svgId == nodeId))

/-- `Number.MAX_VALUE`, the initial minimum in `addPointToList`. -/
def jsMaxValue : ℚ := 2 ^ 1024 - 2 ^ 971

/-- `getValue` of the metadata utilities: linear interpolation with the
parameter clamped to [0, 1]. -/
noncomputable def getValue (param firstValue secondValue : ℝ) : ℝ :=
  if param < 0 then firstValue
  else if 1 < param then secondValue
  else firstValue + param * (secondValue - firstValue)

/-- `getSquareDistanceFromSegment` of the metadata utilities: squared
distance from `p` to segment `a`-`b` via the clamped projection parameter.
When `a = b` the JavaScript division yields `NaN` (modelled by `none`); a
`NaN` distance never satisfies a `<` comparison, so it can never be
selected. -/
noncomputable def getSquareDistanceFromSegment (p a b : Point) : Option ℝ :=
  let dx := b.x - a.x
  let dy := b.y - a.y
  if dx ^ 2 + dy ^ 2 = 0 then none
  else
    let param := ((p.x - a.x) * dx + (p.y - a.y) * dy) / (dx ^ 2 + dy ^ 2)
    let xx := getValue param a.x b.x
    let yy := getValue param a.y b.y
    some ((p.x - xx) ^ 2 + (p.y - yy) ^ 2)

/-- The scan of `addPointToList` over consecutive segment endpoints,
carrying the loop state (`minDistance`, `index`); `i` is the position of the
current segment. -/
noncomputable def bestScan (bendPoint : Point) : List PointMetadata → ℕ → ℝ → ℕ → ℝ × ℕ
  | a :: b :: rest, i, minDistance, index =>
    match getSquareDistanceFromSegment bendPoint (toPoint a) (toPoint b) with
    | some d =>
      if d < minDistance then bestScan bendPoint (b :: rest) (i + 1) d i
      else bestScan bendPoint (b :: rest) (i + 1) minDistance index
    | none => bestScan bendPoint (b :: rest) (i + 1) minDistance index
  | _, _, minDistance, index => (minDistance, index)

/-- `addPointToList` of the metadata utilities: insert a bend point into the
edge point list at the position that minimizes the squared distance to the
consecutive segments of node1, existing points, node2; the new list and the
insertion index are returned. -/
noncomputable def addPointToList (pointsMetadata : Option (List PointMetadata))
    (node1 node2 bendPoint : Point) : List PointMetadata × ℕ :=
  match pointsMetadata with
  | none => ([⟨bendPoint.x, bendPoint.y⟩], 0)
  | some pts =>
    let augmented : List PointMetadata := ⟨node1.x, node1.y⟩ :: pts ++ [⟨node2.x, node2.y⟩]
    let index := (bestScan bendPoint augmented 0 (jsMaxValue : ℝ) 0).2
    (pts.take index ++ ⟨round bendPoint.x, round bendPoint.y⟩ :: pts.drop index, index)

/-- Total length of a polyline (sum of consecutive `getDistance`). -/
noncomputable def polyLength : List Point → ℝ
  | p :: q :: rest => getDistance p q + polyLength (q :: rest)
  | _ => 0

/-- The second walk of `getEdgePoints` over the full point chain: `cur` is
the current point, `pd` the cumulative distance walked so far, `middleAdded`
whether the interpolated split point has been emitted.  The first component
collects the points after the chain head that belong to half-edge 1, the
second the (not yet reversed) points of half-edge 2. -/
noncomputable def splitWalk (half : ℝ) : Point → List Point → ℝ → Bool → List Point × List Point
  | _, [], _, _ => ([], [])
  | cur, next :: rest, pd, middleAdded =>
    let pd2 := pd + getDistance cur next
    if pd2 < half then
      let r := splitWalk half next rest pd2 middleAdded
      (next :: r.1, r.2)
    else if middleAdded then
      let r := splitWalk half next rest pd2 middleAdded
      (r.1, next :: r.2)
    else
      let edgeMiddle := getPointAtDistance next cur (pd2 - half)
      let r := splitWalk half next rest pd2 true
      (edgeMiddle :: r.1, edgeMiddle :: next :: r.2)

/-- `getEdgePoints` of the metadata utilities: without bend points each
half-edge is start, optional fork, end; with bend points the chain
(start1, bends…, start2) is split at half its total length, each half
keeping its side's start, the second half reversed. -/
noncomputable def getEdgePoints (edgeStart1 : Point) (edgeFork1 : Option Point) (edgeEnd1 : Point)
    (edgeStart2 : Point) (edgeFork2 : Option Point) (edgeEnd2 : Point)
    (bendingPoints : Option (List PointMetadata)) : List Point × List Point :=
  match bendingPoints with
  | none =>
    let edgePoints1 := match edgeFork1 with
      | some f => [edgeStart1, f, edgeEnd1]
      | none => [edgeStart1, edgeEnd1]
    let edgePoints2 := match edgeFork2 with
      | some f => [edgeStart2, f, edgeEnd2]
      | none => [edgeStart2, edgeEnd2]
    (edgePoints1, edgePoints2)
  | some bps =>
    let start : Point := ⟨edgeStart1.x, edgeStart1.y⟩
    let chainTail : List Point := bps.map toPoint ++ [⟨edgeStart2.x, edgeStart2.y⟩]
    let distance := polyLength (start :: chainTail)
    let r := splitWalk (distance / 2) start chainTail 0 false
    (start :: r.1, r.2.reverse)

/-- `getEdgeStart` of svg-utils: the point at the bus outer radius (plus the
extra margin for the empty "unknown bus" sentinel id) from the node center in
the given direction. -/
noncomputable def getEdgeStart (busNodeId : String) (vlPoint : Point) (direction : Point)
    (busOuterRadius : ℝ) (svgParameters : SvgParameters) : Point :=
  let unknownBusNode1 := busNodeId.length = 0
  let rho := if unknownBusNode1 then busOuterRadius + svgParameters.getUnknownBusNodeExtraRadius
    else busOuterRadius
  getPointAtDistance vlPoint direction rho

/-- `getEdgeDirection` of svg-utils: the first bending point if any, else the
fork point if any, else the opposite node. -/
def getEdgeDirection (nodePoint : Point) (edgeFork : Option Point)
    (firstBendingPoint : Option PointMetadata) : Point :=
  match firstBendingPoint with
  | some p => ⟨p.x, p.y⟩
  | none => edgeFork.getD nodePoint

/-- `getTranslatedPolyline` of svg-utils: translate by the delta between the
node's metadata position and the caller-supplied initial position. -/
noncomputable def getTranslatedPolyline (polylinePoints : List Point) (nodeMetadata : NodeMetadata)
    (initialPosition : Point) : List Point :=
  let translation : Point := ⟨nodeMetadata.x - initialPosition.x, nodeMetadata.y - initialPosition.y⟩
  polylinePoints.map (fun point => ⟨point.x + translation.x, point.y + translation.y⟩)

/-- `getHalfEdges` of svg-utils: the two half-edges of a two-terminal branch,
or `[null, null]` when either end node is missing from the metadata. -/
noncomputable def getHalfEdges (edge : EdgeMetadata) (iEdge : ℕ) (groupedEdgesCount : ℕ)
    (diagramMetadata : Option DiagramMetadata) (svgParameters : SvgParameters) :
    Option HalfEdge × Option HalfEdge :=
  let edgeType := getEdgeType edge
  let busNode1 := getBusNodeMetadata edge.busNode1 diagramMetadata
  let busNode2 := getBusNodeMetadata edge.busNode2 diagramMetadata
  match getNodeMetadata edge.node1 diagramMetadata, getNodeMetadata edge.node2 diagramMetadata with
  | some node1, some node2 =>
    let point1 : Point := ⟨node1.x, node1.y⟩
    let point2 : Point := ⟨node2.x, node2.y⟩
    let forks : Option (Point × Point) :=
      if 1 < groupedEdgesCount then
        let angle := getAngle point1 point2
        let angleStep := svgParameters.getEdgesForkAperture / ((groupedEdgesCount : ℝ) - 1)
        let alpha := -svgParameters.getEdgesForkAperture / 2 + (iEdge : ℝ) * angleStep
        let angleFork1 := angle - alpha
        let angleFork2 := angle + Real.pi + alpha
        some (getEdgeFork point1 svgParameters.getEdgesForkLength angleFork1,
          getEdgeFork point2 svgParameters.getEdgesForkLength angleFork2)
      else none
    let edgeFork1 := forks.map Prod.fst
    let edgeFork2 := forks.map Prod.snd
    let edgeDirection1 := getEdgeDirection point2 edgeFork1 (edge.bendingPoints.bind List.head?)
    let nodeRadius1 := getNodeRadius busNode1 (some node1) svgParameters
    let edgeStart1 := getEdgeStart edge.busNode1 point1 edgeDirection1 nodeRadius1.busOuterRadius svgParameters
    let edgeDirection2 := getEdgeDirection point1 edgeFork2 (edge.bendingPoints.bind List.getLast?)
    let nodeRadius2 := getNodeRadius busNode2 (some node2) svgParameters
    let edgeStart2 := getEdgeStart edge.busNode2 point2 edgeDirection2 nodeRadius2.busOuterRadius svgParameters
    let edgeMiddle := match edgeFork1, edgeFork2 with
      | some f1, some f2 => getMidPosition f1 f2
      | _, _ => getMidPosition edgeStart1 edgeStart2
    let isTransformer := (edgeType.map isTransformerEdge).getD false
    let endShift := 1.5 * svgParameters.getTransformerCircleRadius
    let edgeEnd1 := if isTransformer then
        getPointAtDistance edgeMiddle (edgeFork1.getD edgeStart1) endShift
      else edgeMiddle
    let edgeEnd2 := if isTransformer then
        getPointAtDistance edgeMiddle (edgeFork2.getD edgeStart2) endShift
      else edgeMiddle
    let edgePoints := getEdgePoints edgeStart1 edgeFork1 edgeEnd1 edgeStart2 edgeFork2 edgeEnd2
      edge.bendingPoints
    let halfEdge1 : HalfEdge :=
      { side := "1", fork := decide (1 < groupedEdgesCount),
        busOuterRadius := nodeRadius1.busOuterRadius,
        voltageLevelRadius := nodeRadius1.voltageLevelRadius,
        edgeInfoId := edge.edgeInfo1.map (·.svgId), edgePoints := edgePoints.1 }
    let halfEdge2 : HalfEdge :=
      { side := "2", fork := decide (1 < groupedEdgesCount),
        busOuterRadius := nodeRadius2.busOuterRadius,
        voltageLevelRadius := nodeRadius2.voltageLevelRadius,
        edgeInfoId := edge.edgeInfo2.map (·.svgId), edgePoints := edgePoints.2 }
    (some halfEdge1, some halfEdge2)
  | _, _ => (none, none)

/-- `getThreeWtHalfEdge` of svg-utils: the dedicated single-sided half-edge
of a three-windings-transformer leg, undefined when the rendered points are
missing or when either the voltage-level node or the transformer pivot node
is missing from the metadata.  (On an empty points list the JavaScript code
would fault on `points.at(-1)!`; that non-total access is modelled by a
default, outside the scope of the claims.) -/
noncomputable def getThreeWtHalfEdge (points : Option (List Point)) (edgeMetadata : EdgeMetadata)
    (threeWtMoved : Bool) (initialPosition : Option Point)
    (diagramMetadata : Option DiagramMetadata) (svgParameters : SvgParameters) : Option HalfEdge :=
  match points with
  | none => none
  | some points =>
    let busNode := getBusNodeMetadata edgeMetadata.busNode1 diagramMetadata
    match getNodeMetadata edgeMetadata.node1 diagramMetadata,
        getNodeMetadata edgeMetadata.node2 diagramMetadata with
    | some vlNode, some twtNode =>
      let pointVl : Point := ⟨vlNode.x, vlNode.y⟩
      let pointTwt : Point := ⟨twtNode.x, twtNode.y⟩
      let nodeRadius := getNodeRadius busNode (some vlNode) svgParameters
      let edgeStart := getEdgeStart edgeMetadata.busNode1 pointVl pointTwt
        nodeRadius.busOuterRadius svgParameters
      let lastPoint := points.getLast?.getD ⟨0, 0⟩
      let edgeEnd := match threeWtMoved, initialPosition with
        | true, some initialPosition =>
          (⟨lastPoint.x + pointTwt.x - initialPosition.x,
            lastPoint.y + pointTwt.y - initialPosition.y⟩ : Point)
        | _, _ => lastPoint
      let halfEdge : HalfEdge :=
        { side := "1", fork := false, busOuterRadius := nodeRadius.busOuterRadius,
          voltageLevelRadius := nodeRadius.voltageLevelRadius,
          edgeInfoId := edgeMetadata.edgeInfo1.map (·.svgId), edgePoints := [edgeStart, edgeEnd] }
      some halfEdge
    | _, _ => none

/-- `getHalfVisibleHalfEdges` of svg-utils: rebuild only the visible half of a
half-visible edge from the rendered polyline; `[null, null]` when the
polyline is missing or empty or the visible node is missing from the
metadata. -/
noncomputable def getHalfVisibleHalfEdges (polylinePoints : Option (List Point))
    (edgeMetadata : EdgeMetadata) (visibleSide : String) (fork : Bool)
    (diagramMetadata : Option DiagramMetadata) (initialPosition : Option Point)
    (svgParameters : SvgParameters) : Option HalfEdge × Option HalfEdge :=
  match polylinePoints with
  | none => (none, none)
  | some polylinePoints =>
    if polylinePoints.length = 0 then (none, none)
    else
      let visibleNodeId := if visibleSide = "1" then edgeMetadata.node1 else edgeMetadata.node2
      match diagramMetadata.bind (fun dm => dm.nodes.find? (fun node => node.svgId == visibleNodeId)) with
      | none => (none, none)
      | some visibleNodeMetadata =>
        let translated := match initialPosition with
          | some initialPosition => getTranslatedPolyline polylinePoints visibleNodeMetadata initialPosition
          | none => polylinePoints
        let busNode := getBusNodeMetadata
          (if visibleSide = "1" then edgeMetadata.busNode1 else edgeMetadata.busNode2) diagramMetadata
        let vlNode := getNodeMetadata
          (if visibleSide = "1" then edgeMetadata.node1 else edgeMetadata.node2) diagramMetadata
        let nodeRadius := getNodeRadius busNode vlNode svgParameters
        let point : Point := ⟨visibleNodeMetadata.x, visibleNodeMetadata.y⟩
        let visibleBusNode := if visibleSide = "1" then edgeMetadata.busNode1 else edgeMetadata.busNode2
        let newStart := getEdgeStart visibleBusNode point (translated[1]?.getD ⟨0, 0⟩)
          nodeRadius.busOuterRadius svgParameters
        let edgePoints := newStart :: translated.drop 1
        let visibleHalfEdge : HalfEdge :=
          { side := visibleSide, fork := fork, busOuterRadius := nodeRadius.busOuterRadius,
            voltageLevelRadius := nodeRadius.voltageLevelRadius,
            edgeInfoId := (if visibleSide = "1" then edgeMetadata.edgeInfo1 else edgeMetadata.edgeInfo2).map (·.svgId),
            edgePoints := edgePoints }
        if visibleSide = "1" then (some visibleHalfEdge, none) else (none, some visibleHalfEdge)

/-- The arguments handed to `getCirclePath` of diagram-utils for one SVG arc
command (the `toFixed` string formatting and the derived large-arc flag are
abstracted away). -/
structure CircleArc where
  radius : ℝ
  angleStart : ℝ
  angleEnd : ℝ
  clockWise : Bool

/-- `getCirclePath` of diagram-utils, as the abstract arc record. -/
def getCirclePath (radius angleStart angleEnd : ℝ) (clockWise : Bool) : CircleArc :=
  { radius := radius, angleStart := angleStart, angleEnd := angleEnd, clockWise := clockWise }

/-- One command of the path string built by `getFragmentedAnnulusPath`:
an `M` arc, an `L` arc, or a `Z` closure. -/
inductive PathSeg where
  | move (arc : CircleArc)
  | line (arc : CircleArc)
  | close

/-- The body of one iteration of the slice loop of
`getFragmentedAnnulusPath`, for the pair of consecutive angles it reads:
both arc ranges are inset by `halfWidth / radius` and the closed slice
(outer arc forward, inner arc backward) is emitted only when neither inset
range inverts.  When either radius is zero the JavaScript division yields an
infinite inset (`NaN` for a zero width), the corresponding strict comparison
below can never hold, and no slice is emitted — in particular the innermost
bus, whose inner radius is 0, gets no fragmented slices; the embedding
returns the empty slice directly in that case.  (It assumes the hollow width
is nonnegative, as widths are: a negative width with a zero radius would
make the JavaScript emit arcs with infinite coordinates, outside this
real-valued model.) -/
noncomputable def annulusSlice (nodeRadius : NodeRadius) (halfWidth angle angleNext : ℝ) :
    List PathSeg :=
  if nodeRadius.busOuterRadius = 0 ∨ nodeRadius.busInnerRadius = 0 then []
  else
    let deltaAngle0 := halfWidth / nodeRadius.busOuterRadius
    let deltaAngle1 := halfWidth / nodeRadius.busInnerRadius
    let outerArcStart := angle + deltaAngle0
    let outerArcEnd := angleNext - deltaAngle0
    let innerArcStart := angleNext - deltaAngle1
    let innerArcEnd := angle + deltaAngle1
    if outerArcStart < outerArcEnd ∧ innerArcEnd < innerArcStart then
      [PathSeg.move (getCirclePath nodeRadius.busOuterRadius outerArcStart outerArcEnd true),
       PathSeg.line (getCirclePath nodeRadius.busInnerRadius innerArcStart innerArcEnd false),
       PathSeg.close]
    else []

/-- The slice loop of `getFragmentedAnnulusPath`: the JavaScript `for` loop
runs `index` up to `angles.length - 1` and reads `angles[index + 1]`, which
is undefined on the last iteration; the resulting `NaN` bounds satisfy no
strict comparison, so that iteration emits nothing (modelled by the `none`
branch). -/
noncomputable def annulusSlices (angles : List ℝ) (nodeRadius : NodeRadius) (halfWidth : ℝ) :
    List PathSeg :=
  ((List.range angles.length).map (fun index =>
    match angles[index]?, angles[index + 1]? with
    | some angle, some angleNext => annulusSlice nodeRadius halfWidth angle angleNext
    | _, _ => [])).flatten

/-- `getFragmentedAnnulusPath` of diagram-utils: with no attachment angles,
two full-circle arc pairs at the outer radius and (if the inner radius is
positive) two opposite-winding arc pairs at the inner radius; otherwise one
inset slice per pair of consecutive angles, skipping slices that would
invert. -/
noncomputable def getFragmentedAnnulusPath (angles : List ℝ) (nodeRadius : NodeRadius)
    (nodeHollowWidth : ℝ) : List PathSeg :=
  if angles.length = 0 then
    [PathSeg.move (getCirclePath nodeRadius.busOuterRadius 0 Real.pi true),
     PathSeg.move (getCirclePath nodeRadius.busOuterRadius Real.pi 0 true)] ++
    (if 0 < nodeRadius.busInnerRadius then
      [PathSeg.move (getCirclePath nodeRadius.busInnerRadius 0 Real.pi false),
       PathSeg.move (getCirclePath nodeRadius.busInnerRadius Real.pi 0 false)]
    else [])
  else annulusSlices angles nodeRadius (nodeHollowWidth / 2)

/-- The value type of the controller's `linePointIndexMap`: each rendered
bend handle is mapped to its owning edge's svg id and its position in that
edge's `bendingPoints` list (`-1` marks an uncommitted preview handle). -/
structure LinePointRef where
  edgeId : String
  index : ℤ
deriving DecidableEq

/-- The controller's `linePointIndexMap`, an insertion-ordered map from
bend-handle element ids to `LinePointRef`. -/
abbrev IndexMap : Type := List (String × LinePointRef)

/-- `Map.set`: update the value in place when the key is present, append
otherwise. -/
def mapSet (m : IndexMap) (key : String) (v : LinePointRef) : IndexMap :=
  if (List.any m (fun kv => kv.1 = key)) then
    List.map (fun kv => if kv.1 = key then (key, v) else kv) m
  else m ++ [(key, v)]

/-- The map bookkeeping of `updateEdgeMetadataWhenBending` when a preview
handle is first committed: the handle is mapped to the insertion index
returned by `addPointToList`, then every other handle on the same edge whose
stored index is ≥ that index is incremented. -/
def bendIndexUpdate (m : IndexMap) (handleId edgeSvgId : String) (insertIndex : ℤ) : IndexMap :=
  let m1 := mapSet m handleId ⟨edgeSvgId, insertIndex⟩
  List.map (fun kv =>
    if kv.1 ≠ handleId ∧ kv.2.edgeId = edgeSvgId ∧ insertIndex ≤ kv.2.index then
      (kv.1, (⟨kv.2.edgeId, kv.2.index + 1⟩ : LinePointRef))
    else kv) m1

/-- The map bookkeeping of `updateEdgeMetadataWhenStraightening` (every other
handle on the same edge whose stored index is ≥ the removed index is
decremented) followed by the deletion of the removed handle's own mapping
performed in `redrawBentLine`. -/
def straightenIndexUpdate (m : IndexMap) (handleId edgeSvgId : String) (removeIndex : ℤ) :
    IndexMap :=
  List.filter (fun kv => kv.1 ≠ handleId)
    (List.map (fun kv =>
      if kv.1 ≠ handleId ∧ kv.2.edgeId = edgeSvgId ∧ removeIndex ≤ kv.2.index then
        (kv.1, (⟨kv.2.edgeId, kv.2.index - 1⟩ : LinePointRef))
      else kv) m)

/-- The stored indices of the handles of one edge, in map order. -/
def edgeIndices (m : IndexMap) (edgeSvgId : String) : List ℤ :=
  List.map (fun kv => kv.2.index) (List.filter (fun kv => kv.2.edgeId = edgeSvgId) m)

/-- The bend-handle map invariant for one edge: the stored indices are
pairwise distinct and are exactly the positions `0 .. n-1` of the edge's
`bendingPoints` list. -/
def indicesComplete (m : IndexMap) (edgeSvgId : String) (n : ℕ) : Prop :=
  (edgeIndices m edgeSvgId).Nodup ∧
    ∀ j : ℤ, j ∈ edgeIndices m edgeSvgId ↔ 0 ≤ j ∧ j < (n : ℤ)

/-- The metadata effect of `setBranchBusConnection` of the interaction
controller: reassign one side's bus node, rejecting a falsy bus id (the
JavaScript guard `if (!busId) return` rejects both an undefined and an empty
string id), a missing target bus, and a target bus on a different voltage
level than the currently connected bus (the subsequent DOM redraw does not
touch the edge metadata). -/
def setBranchBusConnection (diagramMetadata : Option DiagramMetadata) (edge : EdgeMetadata)
    (side : String) (busId : Option String) : EdgeMetadata :=
  match busId with
  | none => edge
  | some busId =>
    if busId = "" then edge
    else
    match diagramMetadata.bind
        (fun dm => dm.busNodes.find? (fun busNode => busNode.equipmentId == busId)) with
    | none => edge
    | some targetBusNode =>
      let currentBusNodeId := if side = "1" then edge.busNode1 else edge.busNode2
      let currentBusNode := diagramMetadata.bind
        (fun dm => dm.busNodes.find? (fun busNode => busNode.svgId == currentBusNodeId))
      if (currentBusNode.map (fun cur => cur.vlNode != targetBusNode.vlNode)).getD false then edge
      else if side = "1" then { edge with busNode1 := targetBusNode.svgId }
      else { edge with busNode2 := targetBusNode.svgId }

/-! ## Theorems -/

/-- Claim C9: `getGroupedEdgesIndexKey` is symmetric in the two node ids —
an edge with `node1 = a, node2 = b` and an edge with `node1 = b, node2 = a`
yield the same key, namely the string-comparison minimum of `a` and `b`, an
underscore, then the maximum; concretely `node1 = "0", node2 = "2"` and
`node1 = "2", node2 = "0"` both yield `"0_2"`. -/
theorem groupedEdgesIndexKey_symmetric :
    (∀ e e' : EdgeMetadata, e'.node1 = e.node2 → e'.node2 = e.node1 →
      getGroupedEdgesIndexKey e = getGroupedEdgesIndexKey e') ∧
    (∀ e : EdgeMetadata,
      getGroupedEdgesIndexKey e = min e.node1 e.node2 ++ "_" ++ max e.node1 e.node2) ∧
    getGroupedEdgesIndexKey
      ⟨"svg1", "eq1", "0", "2", "", "", none, none, none, none, none, none⟩ = "0_2" ∧
    getGroupedEdgesIndexKey
      ⟨"svg2", "eq2", "2", "0", "", "", none, none, none, none, none, none⟩ = "0_2" := by
  refine ⟨?_, ?_, ?_, ?_⟩
  · intro e e' h1 h2
    unfold getGroupedEdgesIndexKey
    rw [h1, h2]
    rcases lt_trichotomy e.node1 e.node2 with h | h | h
    · rw [if_pos h, if_neg (lt_asymm h)]
    · rw [h]
    · rw [if_neg (lt_asymm h), if_pos h]
  · intro e
    unfold getGroupedEdgesIndexKey
    rcases lt_or_le e.node1 e.node2 with h | h
    · rw [if_pos h, min_eq_left (le_of_lt h), max_eq_right (le_of_lt h)]
    · rw [if_neg (not_lt_of_le h), min_eq_right h, max_eq_left h]
  · unfold getGroupedEdgesIndexKey
    rw [if_pos (show ("0" : String) < "2" by rw [String.lt_iff_toList_lt]; decide)]
    rfl
  · unfold getGroupedEdgesIndexKey
    rw [if_neg (show ¬("2" : String) < "0" by rw [String.lt_iff_toList_lt]; decide)]
    rfl

/-- Witness for claim C9's theorem at concrete inputs: the two swapped edges
of the concrete example have equal keys, of the min-underscore-max shape. -/
theorem groupedEdgesIndexKey_symmetric_witness :
    getGroupedEdgesIndexKey
      ⟨"svg1", "eq1", "0", "2", "", "", none, none, none, none, none, none⟩ =
    getGroupedEdgesIndexKey
      ⟨"svg2", "eq2", "2", "0", "", "", none, none, none, none, none, none⟩ :=
  groupedEdgesIndexKey_symmetric.1
    ⟨"svg1", "eq1", "0", "2", "", "", none, none, none, none, none, none⟩
    ⟨"svg2", "eq2", "2", "0", "", "", none, none, none, none, none, none⟩ rfl rfl

/-- Claim C10: when `bendingPoints` is present, the output of `getEdgePoints`
depends only on the two edge start points and the bend points — the fork and
end arguments (in particular the transformer end pull-back and the fork
points computed in `getHalfEdges`) have no effect on either half-edge. -/
theorem edgePoints_ignore_forks_and_ends (edgeStart1 edgeStart2 : Point)
    (edgeEnd1 edgeEnd2 edgeEnd1' edgeEnd2' : Point)
    (edgeFork1 edgeFork2 edgeFork1' edgeFork2' : Option Point)
    (bendingPoints : List PointMetadata) :
    getEdgePoints edgeStart1 edgeFork1 edgeEnd1 edgeStart2 edgeFork2 edgeEnd2
        (some bendingPoints) =
      getEdgePoints edgeStart1 edgeFork1' edgeEnd1' edgeStart2 edgeFork2' edgeEnd2'
        (some bendingPoints) := rfl

/-- Claim C6: a branch-side bus reassignment is rejected — the edge metadata
is returned unchanged — when the bus id is falsy (absent or empty, per the
JavaScript guard), when the target bus is missing, or when the target bus
belongs to a different voltage level than the currently connected bus; only
when the id is non-falsy, the target bus exists and the voltage-level check
passes is the side's bus-node id replaced by the target's svg id (all other
edge fields unchanged). -/
theorem setBranchBusConnection_guard :
    (∀ (dm : Option DiagramMetadata) (edge : EdgeMetadata) (side : String)
      (busId : String) (target cur : BusNodeMetadata),
      dm.bind (fun d => d.busNodes.find? (fun bn => bn.equipmentId == busId)) = some target →
      dm.bind (fun d => d.busNodes.find? (fun bn =>
        bn.svgId == (if side = "1" then edge.busNode1 else edge.busNode2))) = some cur →
      cur.vlNode ≠ target.vlNode →
      setBranchBusConnection dm edge side (some busId) = edge) ∧
    (∀ (dm : Option DiagramMetadata) (edge : EdgeMetadata) (side : String),
      setBranchBusConnection dm edge side none = edge) ∧
    (∀ (dm : Option DiagramMetadata) (edge : EdgeMetadata) (side : String),
      setBranchBusConnection dm edge side (some "") = edge) ∧
    (∀ (dm : Option DiagramMetadata) (edge : EdgeMetadata) (side : String) (busId : String),
      dm.bind (fun d => d.busNodes.find? (fun bn => bn.equipmentId == busId)) = none →
      setBranchBusConnection dm edge side (some busId) = edge) ∧
    (∀ (dm : Option DiagramMetadata) (edge : EdgeMetadata) (side : String)
      (busId : String) (target : BusNodeMetadata),
      busId ≠ "" →
      dm.bind (fun d => d.busNodes.find? (fun bn => bn.equipmentId == busId)) = some target →
      (dm.bind (fun d => d.busNodes.find? (fun bn =>
          bn.svgId == (if side = "1" then edge.busNode1 else edge.busNode2))) = none ∨
        ∃ cur, dm.bind (fun d => d.busNodes.find? (fun bn =>
          bn.svgId == (if side = "1" then edge.busNode1 else edge.busNode2))) = some cur ∧
          cur.vlNode = target.vlNode) →
      setBranchBusConnection dm edge side (some busId) =
        (if side = "1" then { edge with busNode1 := target.svgId }
          else { edge with busNode2 := target.svgId })) := by
  refine ⟨?_, ?_, ?_, ?_, ?_⟩
  · intro dm edge side busId target cur htarget hcur hvl
    by_cases hempty : busId = ""
    · simp only [setBranchBusConnection, if_pos hempty]
    · simp only [setBranchBusConnection, if_neg hempty, htarget, hcur, Option.map_some',
        Option.getD_some]
      rw [if_pos (by simpa [bne_iff_ne] using hvl)]
  · intro dm edge side
    rfl
  · intro dm edge side
    simp [setBranchBusConnection]
  · intro dm edge side busId htarget
    by_cases hempty : busId = ""
    · simp only [setBranchBusConnection, if_pos hempty]
    · simp only [setBranchBusConnection, if_neg hempty, htarget]
  · intro dm edge side busId target hempty htarget hcur
    simp only [setBranchBusConnection, if_neg hempty, htarget]
    rcases hcur with hcur | ⟨cur, hcur, hvl⟩
    · simp only [hcur, Option.map_none', Option.getD_none]
      rw [if_neg (by simp)]
    · simp only [hcur, Option.map_some', Option.getD_some]
      rw [if_neg (by simp [hvl])]

/-- Witness for claim C6's theorem: with one voltage level `vlA` holding
buses `bus1` and `bus2` and another `vlB` holding `bus3`, reassigning side 1
of an edge connected to `bus1` towards `bus3` is rejected, an empty bus id
is rejected, and reassigning towards `bus2` replaces `busNode1` by `bus2`'s
svg id. -/
theorem setBranchBusConnection_guard_witness :
    setBranchBusConnection
        (some ⟨[⟨"b1", "bus1", 0, 0, "vlA"⟩, ⟨"b2", "bus2", 0, 1, "vlA"⟩,
          ⟨"b3", "bus3", 0, 0, "vlB"⟩], [], []⟩)
        ⟨"e", "edge", "n1", "n2", "b1", "b2", none, none, none, none, none, none⟩
        "1" (some "bus3") =
      ⟨"e", "edge", "n1", "n2", "b1", "b2", none, none, none, none, none, none⟩ ∧
    setBranchBusConnection
        (some ⟨[⟨"b1", "bus1", 0, 0, "vlA"⟩, ⟨"b2", "bus2", 0, 1, "vlA"⟩,
          ⟨"b3", "bus3", 0, 0, "vlB"⟩], [], []⟩)
        ⟨"e", "edge", "n1", "n2", "b1", "b2", none, none, none, none, none, none⟩
        "1" (some "") =
      ⟨"e", "edge", "n1", "n2", "b1", "b2", none, none, none, none, none, none⟩ ∧
    setBranchBusConnection
        (some ⟨[⟨"b1", "bus1", 0, 0, "vlA"⟩, ⟨"b2", "bus2", 0, 1, "vlA"⟩,
          ⟨"b3", "bus3", 0, 0, "vlB"⟩], [], []⟩)
        ⟨"e", "edge", "n1", "n2", "b1", "b2", none, none, none, none, none, none⟩
        "1" (some "bus2") =
      ⟨"e", "edge", "n1", "n2", "b2", "b2", none, none, none, none, none, none⟩ := by
  refine ⟨?_, ?_, ?_⟩
  · exact setBranchBusConnection_guard.1
      (some ⟨[⟨"b1", "bus1", 0, 0, "vlA"⟩, ⟨"b2", "bus2", 0, 1, "vlA"⟩,
        ⟨"b3", "bus3", 0, 0, "vlB"⟩], [], []⟩)
      ⟨"e", "edge", "n1", "n2", "b1", "b2", none, none, none, none, none, none⟩
      "1" "bus3" ⟨"b3", "bus3", 0, 0, "vlB"⟩ ⟨"b1", "bus1", 0, 0, "vlA"⟩
      (by rfl) (by rfl) (by decide)
  · exact setBranchBusConnection_guard.2.2.1
      (some ⟨[⟨"b1", "bus1", 0, 0, "vlA"⟩, ⟨"b2", "bus2", 0, 1, "vlA"⟩,
        ⟨"b3", "bus3", 0, 0, "vlB"⟩], [], []⟩)
      ⟨"e", "edge", "n1", "n2", "b1", "b2", none, none, none, none, none, none⟩
      "1"
  · exact setBranchBusConnection_guard.2.2.2.2
      (some ⟨[⟨"b1", "bus1", 0, 0, "vlA"⟩, ⟨"b2", "bus2", 0, 1, "vlA"⟩,
        ⟨"b3", "bus3", 0, 0, "vlB"⟩], [], []⟩)
      ⟨"e", "edge", "n1", "n2", "b1", "b2", none, none, none, none, none, none⟩
      "1" "bus2" ⟨"b2", "bus2", 0, 1, "vlA"⟩
      (by decide) (by rfl) (Or.inr ⟨⟨"b1", "bus1", 0, 0, "vlA"⟩, by rfl, rfl⟩)

/-- Claim C2: for a bus node with `nbNeighbours = n` and 0-based `index = i`,
`getNodeRadius` returns `voltageLevelRadius = clamp(n+1, 1, 2) * baseRadius`
(base radius chosen by the node's fictitious flag),
`busOuterRadius = (i+1) * unitaryRadius - interAnnulusSpace/2` with
`unitaryRadius = voltageLevelRadius / (n+1)`, and `busInnerRadius = 0` for
`i = 0`, else `i * unitaryRadius + interAnnulusSpace/2`; with default
parameters `n=0, i=0` gives `(0, 27.5, 30)` and `n=2, i=2` gives
`(42.5, 57.5, 60)`, and consecutive outer radii differ by exactly one
unitary radius. -/
theorem nodeRadius_annuli :
    (∀ (bn : BusNodeMetadata) (node : Option NodeMetadata) (p : SvgParameters),
      (getNodeRadius (some bn) node p).voltageLevelRadius =
        min (max ((bn.nbNeighbours : ℝ) + 1) 1) 2 *
          (if (node.bind (·.fictitious)).getD false then p.getFictitiousVoltageLevelCircleRadius
            else p.getVoltageLevelCircleRadius) ∧
      (getNodeRadius (some bn) node p).busOuterRadius =
        ((bn.index : ℝ) + 1) *
            ((getNodeRadius (some bn) node p).voltageLevelRadius / ((bn.nbNeighbours : ℝ) + 1)) -
          p.getInterAnnulusSpace / 2 ∧
      (getNodeRadius (some bn) node p).busInnerRadius =
        (if bn.index = 0 then 0 else
          (bn.index : ℝ) *
              ((getNodeRadius (some bn) node p).voltageLevelRadius / ((bn.nbNeighbours : ℝ) + 1)) +
            p.getInterAnnulusSpace / 2)) ∧
    (∀ (bn bn' : BusNodeMetadata) (node : Option NodeMetadata) (p : SvgParameters),
      bn'.nbNeighbours = bn.nbNeighbours → bn'.index = bn.index + 1 →
      (getNodeRadius (some bn') node p).busOuterRadius =
        (getNodeRadius (some bn) node p).busOuterRadius +
          (getNodeRadius (some bn) node p).voltageLevelRadius / ((bn.nbNeighbours : ℝ) + 1)) ∧
    getNodeRadius (some ⟨"b0", "bus0", 0, 0, "vl"⟩) none ⟨none⟩ = ⟨0, 27.5, 30⟩ ∧
    getNodeRadius (some ⟨"b2", "bus2", 2, 2, "vl"⟩) none ⟨none⟩ = ⟨42.5, 57.5, 60⟩ := by
  refine ⟨?_, ?_, ?_, ?_⟩
  · intro bn node p
    refine ⟨rfl, rfl, ?_⟩
    simp only [getNodeRadius, getVoltageLevelCircleRadius, Option.map_some', Option.getD_some]
  · intro bn bn' node p h1 h2
    simp only [getNodeRadius, getVoltageLevelCircleRadius, Option.map_some', Option.getD_some,
      h1, h2]
    push_cast
    ring
  · simp only [getNodeRadius, getVoltageLevelCircleRadius, Option.map_some', Option.getD_some,
      Option.bind_none, Option.getD_none, SvgParameters.getVoltageLevelCircleRadius,
      SvgParameters.getInterAnnulusSpace, SvgParameters.VOLTAGE_LEVEL_CIRCLE_RADIUS_DEFAULT,
      SvgParameters.INTER_ANNULUS_SPACE_DEFAULT, Bool.false_eq_true, if_false]
    rw [NodeRadius.mk.injEq]
    norm_num
  · simp only [getNodeRadius, getVoltageLevelCircleRadius, Option.map_some', Option.getD_some,
      Option.bind_none, Option.getD_none, SvgParameters.getVoltageLevelCircleRadius,
      SvgParameters.getInterAnnulusSpace, SvgParameters.VOLTAGE_LEVEL_CIRCLE_RADIUS_DEFAULT,
      SvgParameters.INTER_ANNULUS_SPACE_DEFAULT, Bool.false_eq_true, if_false]
    rw [NodeRadius.mk.injEq]
    norm_num [min_def, max_def]

/-- Witness for claim C2's theorem: the outer-radius recurrence evaluated at
the concrete default-parameter bus nodes with `n = 2`, `i = 1` and `i = 2`:
`57.5 = 37.5 + 20`. -/
theorem nodeRadius_annuli_witness :
    (getNodeRadius (some ⟨"b2", "bus2", 2, 2, "vl"⟩) none ⟨none⟩).busOuterRadius =
      (getNodeRadius (some ⟨"b1", "bus1", 2, 1, "vl"⟩) none ⟨none⟩).busOuterRadius +
        (getNodeRadius (some ⟨"b1", "bus1", 2, 1, "vl"⟩) none ⟨none⟩).voltageLevelRadius /
          ((2 : ℝ) + 1) :=
  nodeRadius_annuli.2.1 ⟨"b1", "bus1", 2, 1, "vl"⟩ ⟨"b2", "bus2", 2, 2, "vl"⟩ none ⟨none⟩
    rfl rfl

/-- Evaluation of `Option.getD` under an equation for the option. -/
theorem getD_of_eq_some {α : Type} {o : Option α} {v d : α} (h : o = some v) : o.getD d = v := by
  rw [h]
  rfl

/-- Evaluation of `Option.getD` under an equation for the option. -/
theorem getD_of_eq_none {α : Type} {o : Option α} {d : α} (h : o = none) : o.getD d = d := by
  rw [h]
  rfl

/-- Claim C8: every `SvgParameters` accessor returns the configured value
when the corresponding field is present and the class's named default
otherwise (in particular for a wholly absent configuration, whose bound
fields are all `none`), and never throws (every accessor is a total
function); `getEdgesForkAperture` returns the degree-valued configured (or
default 60) aperture converted to radians. -/
theorem svgParameters_accessor_defaults :
    (∀ (sp : SvgParameters) (v : ℝ),
      sp.svgParametersMetadata.bind (·.voltageLevelCircleRadius) = some v → sp.getVoltageLevelCircleRadius = v) ∧
    (∀ sp : SvgParameters,
      sp.svgParametersMetadata.bind (·.voltageLevelCircleRadius) = none → sp.getVoltageLevelCircleRadius = 30) ∧
    (∀ (sp : SvgParameters) (v : ℝ),
      sp.svgParametersMetadata.bind (·.interAnnulusSpace) = some v → sp.getInterAnnulusSpace = v) ∧
    (∀ sp : SvgParameters,
      sp.svgParametersMetadata.bind (·.interAnnulusSpace) = none → sp.getInterAnnulusSpace = 5) ∧
    (∀ (sp : SvgParameters) (v : ℝ),
      sp.svgParametersMetadata.bind (·.transformerCircleRadius) = some v → sp.getTransformerCircleRadius = v) ∧
    (∀ sp : SvgParameters,
      sp.svgParametersMetadata.bind (·.transformerCircleRadius) = none → sp.getTransformerCircleRadius = 20) ∧
    (∀ (sp : SvgParameters) (v : ℝ),
      sp.svgParametersMetadata.bind (·.edgesForkLength) = some v → sp.getEdgesForkLength = v) ∧
    (∀ sp : SvgParameters,
      sp.svgParametersMetadata.bind (·.edgesForkLength) = none → sp.getEdgesForkLength = 80) ∧
    (∀ (sp : SvgParameters) (v : ℝ),
      sp.svgParametersMetadata.bind (·.arrowShift) = some v → sp.getArrowShift = v) ∧
    (∀ sp : SvgParameters,
      sp.svgParametersMetadata.bind (·.arrowShift) = none → sp.getArrowShift = 30) ∧
    (∀ (sp : SvgParameters) (v : ℝ),
      sp.svgParametersMetadata.bind (·.arrowLabelShift) = some v → sp.getArrowLabelShift = v) ∧
    (∀ sp : SvgParameters,
      sp.svgParametersMetadata.bind (·.arrowLabelShift) = none → sp.getArrowLabelShift = 19) ∧
    (∀ (sp : SvgParameters) (v : String),
      sp.svgParametersMetadata.bind (·.arrowPathIn) = some v → sp.getArrowPathIn = v) ∧
    (∀ sp : SvgParameters,
      sp.svgParametersMetadata.bind (·.arrowPathIn) = none → sp.getArrowPathIn = "M-10 -10 H10 L0 10z") ∧
    (∀ (sp : SvgParameters) (v : String),
      sp.svgParametersMetadata.bind (·.arrowPathOut) = some v → sp.getArrowPathOut = v) ∧
    (∀ sp : SvgParameters,
      sp.svgParametersMetadata.bind (·.arrowPathOut) = none → sp.getArrowPathOut = "M-10 10 H10 L0 -10z") ∧
    (∀ (sp : SvgParameters) (v : ℝ),
      sp.svgParametersMetadata.bind (·.converterStationWidth) = some v → sp.getConverterStationWidth = v) ∧
    (∀ sp : SvgParameters,
      sp.svgParametersMetadata.bind (·.converterStationWidth) = none → sp.getConverterStationWidth = 70) ∧
    (∀ (sp : SvgParameters) (v : ℝ),
      sp.svgParametersMetadata.bind (·.nodeHollowWidth) = some v → sp.getNodeHollowWidth = v) ∧
    (∀ sp : SvgParameters,
      sp.svgParametersMetadata.bind (·.nodeHollowWidth) = none → sp.getNodeHollowWidth = 15) ∧
    (∀ (sp : SvgParameters) (v : ℝ),
      sp.svgParametersMetadata.bind (·.unknownBusNodeExtraRadius) = some v → sp.getUnknownBusNodeExtraRadius = v) ∧
    (∀ sp : SvgParameters,
      sp.svgParametersMetadata.bind (·.unknownBusNodeExtraRadius) = none → sp.getUnknownBusNodeExtraRadius = 10) ∧
    (∀ (sp : SvgParameters) (v : ℝ),
      sp.svgParametersMetadata.bind (·.fictitiousVoltageLevelCircleRadius) = some v → sp.getFictitiousVoltageLevelCircleRadius = v) ∧
    (∀ sp : SvgParameters,
      sp.svgParametersMetadata.bind (·.fictitiousVoltageLevelCircleRadius) = none → sp.getFictitiousVoltageLevelCircleRadius = 15) ∧
    (∀ (sp : SvgParameters) (v : ℝ),
      sp.svgParametersMetadata.bind (·.powerValuePrecision) = some v → sp.getPowerValuePrecision = v) ∧
    (∀ sp : SvgParameters,
      sp.svgParametersMetadata.bind (·.powerValuePrecision) = none → sp.getPowerValuePrecision = 0) ∧
    (∀ (sp : SvgParameters) (v : ℝ),
      sp.svgParametersMetadata.bind (·.currentValuePrecision) = some v → sp.getCurrentValuePrecision = v) ∧
    (∀ sp : SvgParameters,
      sp.svgParametersMetadata.bind (·.currentValuePrecision) = none → sp.getCurrentValuePrecision = 0) ∧
    (∀ (sp : SvgParameters) (v : ℝ),
      sp.svgParametersMetadata.bind (·.angleValuePrecision) = some v → sp.getAngleValuePrecision = v) ∧
    (∀ sp : SvgParameters,
      sp.svgParametersMetadata.bind (·.angleValuePrecision) = none → sp.getAngleValuePrecision = 1) ∧
    (∀ (sp : SvgParameters) (v : ℝ),
      sp.svgParametersMetadata.bind (·.voltageValuePrecision) = some v → sp.getVoltageValuePrecision = v) ∧
    (∀ sp : SvgParameters,
      sp.svgParametersMetadata.bind (·.voltageValuePrecision) = none → sp.getVoltageValuePrecision = 1) ∧
    (∀ (sp : SvgParameters) (v : ℝ),
      sp.svgParametersMetadata.bind (·.diagramPadding.left) = some v → sp.getDiagramPadding.left = v) ∧
    (∀ sp : SvgParameters,
      sp.svgParametersMetadata.bind (·.diagramPadding.left) = none → sp.getDiagramPadding.left = 200) ∧
    (∀ (sp : SvgParameters) (v : ℝ),
      sp.svgParametersMetadata.bind (·.diagramPadding.top) = some v → sp.getDiagramPadding.top = v) ∧
    (∀ sp : SvgParameters,
      sp.svgParametersMetadata.bind (·.diagramPadding.top) = none → sp.getDiagramPadding.top = 200) ∧
    (∀ (sp : SvgParameters) (v : ℝ),
      sp.svgParametersMetadata.bind (·.diagramPadding.right) = some v → sp.getDiagramPadding.right = v) ∧
    (∀ sp : SvgParameters,
      sp.svgParametersMetadata.bind (·.diagramPadding.right) = none → sp.getDiagramPadding.right = 200) ∧
    (∀ (sp : SvgParameters) (v : ℝ),
      sp.svgParametersMetadata.bind (·.diagramPadding.bottom) = some v → sp.getDiagramPadding.bottom = v) ∧
    (∀ sp : SvgParameters,
      sp.svgParametersMetadata.bind (·.diagramPadding.bottom) = none → sp.getDiagramPadding.bottom = 200) ∧
    (∀ (sp : SvgParameters) (v : ℝ),
      sp.svgParametersMetadata.bind (·.edgesForkAperture) = some v →
      sp.getEdgesForkAperture = v * (Real.pi / 180)) ∧
    (∀ sp : SvgParameters,
      sp.svgParametersMetadata.bind (·.edgesForkAperture) = none →
      sp.getEdgesForkAperture = Real.pi / 3) ∧
    (∀ (sp : SvgParameters) (s : String) (loc : CssLocationEnum),
      sp.svgParametersMetadata.bind (·.cssLocation) = some s → s ≠ "" →
      CssLocationEnumMapping s = some loc → sp.getCssLocation = some loc) ∧
    (∀ sp : SvgParameters,
      sp.svgParametersMetadata.bind (·.cssLocation) = none →
      sp.getCssLocation = some CssLocationEnum.EXTERNAL_NO_IMPORT) := by
  refine ⟨?_, ?_, ?_, ?_, ?_, ?_, ?_, ?_, ?_, ?_, ?_, ?_, ?_, ?_, ?_, ?_, ?_, ?_, ?_, ?_, ?_, ?_, ?_, ?_, ?_, ?_, ?_, ?_, ?_, ?_, ?_, ?_, ?_, ?_, ?_, ?_, ?_, ?_, ?_, ?_, ?_, ?_, ?_, ?_⟩
  · exact fun sp v h => getD_of_eq_some h
  · exact fun sp h => getD_of_eq_none h
  · exact fun sp v h => getD_of_eq_some h
  · exact fun sp h => getD_of_eq_none h
  · exact fun sp v h => getD_of_eq_some h
  · exact fun sp h => getD_of_eq_none h
  · exact fun sp v h => getD_of_eq_some h
  · exact fun sp h => getD_of_eq_none h
  · exact fun sp v h => getD_of_eq_some h
  · exact fun sp h => getD_of_eq_none h
  · exact fun sp v h => getD_of_eq_some h
  · exact fun sp h => getD_of_eq_none h
  · exact fun sp v h => getD_of_eq_some h
  · exact fun sp h => getD_of_eq_none h
  · exact fun sp v h => getD_of_eq_some h
  · exact fun sp h => getD_of_eq_none h
  · exact fun sp v h => getD_of_eq_some h
  · exact fun sp h => getD_of_eq_none h
  · exact fun sp v h => getD_of_eq_some h
  · exact fun sp h => getD_of_eq_none h
  · exact fun sp v h => getD_of_eq_some h
  · exact fun sp h => getD_of_eq_none h
  · exact fun sp v h => getD_of_eq_some h
  · exact fun sp h => getD_of_eq_none h
  · exact fun sp v h => getD_of_eq_some h
  · exact fun sp h => getD_of_eq_none h
  · exact fun sp v h => getD_of_eq_some h
  · exact fun sp h => getD_of_eq_none h
  · exact fun sp v h => getD_of_eq_some h
  · exact fun sp h => getD_of_eq_none h
  · exact fun sp v h => getD_of_eq_some h
  · exact fun sp h => getD_of_eq_none h
  · exact fun sp v h => getD_of_eq_some h
  · exact fun sp h => getD_of_eq_none h
  · exact fun sp v h => getD_of_eq_some h
  · exact fun sp h => getD_of_eq_none h
  · exact fun sp v h => getD_of_eq_some h
  · exact fun sp h => getD_of_eq_none h
  · exact fun sp v h => getD_of_eq_some h
  · exact fun sp h => getD_of_eq_none h
  · intro sp v h
    unfold SvgParameters.getEdgesForkAperture degToRad
    rw [getD_of_eq_some h]
  · intro sp h
    unfold SvgParameters.getEdgesForkAperture degToRad
    rw [getD_of_eq_none h]
    unfold SvgParameters.EDGES_FORK_APERTURE_DEFAULT
    ring
  · intro sp st loc h1 h2 h3
    simp only [SvgParameters.getCssLocation, h1]
    rw [if_neg h2]
    exact h3
  · intro sp h
    simp only [SvgParameters.getCssLocation, h]
    rfl

/-- Witness for claim C8's theorem: with an absent configuration the
voltage-level circle radius accessor returns the default 30, and with a
configuration that sets only that radius to 45 it returns 45. -/
theorem svgParameters_accessor_defaults_witness :
    SvgParameters.getVoltageLevelCircleRadius ⟨none⟩ = 30 ∧
    SvgParameters.getVoltageLevelCircleRadius
      ⟨some ⟨some 45, none, none, none, none, none, none, none, none, none, none, none, none,
        none, none, none, none, ⟨none, none, none, none⟩, none⟩⟩ = 45 :=
  ⟨svgParameters_accessor_defaults.2.1 ⟨none⟩ rfl,
    svgParameters_accessor_defaults.1
      ⟨some ⟨some 45, none, none, none, none, none, none, none, none, none, none, none, none,
        none, none, none, none, ⟨none, none, none, none⟩, none⟩⟩ 45 rfl⟩

/-- Claim C5: no half-edge construction function throws on missing node
metadata — when the lookup of either end node fails `getHalfEdges` returns
`[null, null]`; `getThreeWtHalfEdge` returns undefined when its points
argument is null or when the voltage-level node or transformer-pivot node
lookup fails; `getHalfVisibleHalfEdges` returns `[null, null]` when the
polyline points are null or empty or the visible node is not found.  (In the
embedding every function is total, so the no-throw part holds by
construction.) -/
theorem halfEdge_missing_metadata :
    (∀ (edge : EdgeMetadata) (iEdge groupedEdgesCount : ℕ) (dm : Option DiagramMetadata)
      (p : SvgParameters),
      getNodeMetadata edge.node1 dm = none ∨ getNodeMetadata edge.node2 dm = none →
      getHalfEdges edge iEdge groupedEdgesCount dm p = (none, none)) ∧
    (∀ (edge : EdgeMetadata) (threeWtMoved : Bool) (initialPosition : Option Point)
      (dm : Option DiagramMetadata) (p : SvgParameters),
      getThreeWtHalfEdge none edge threeWtMoved initialPosition dm p = none) ∧
    (∀ (pts : List Point) (edge : EdgeMetadata) (threeWtMoved : Bool)
      (initialPosition : Option Point) (dm : Option DiagramMetadata) (p : SvgParameters),
      getNodeMetadata edge.node1 dm = none ∨ getNodeMetadata edge.node2 dm = none →
      getThreeWtHalfEdge (some pts) edge threeWtMoved initialPosition dm p = none) ∧
    (∀ (edge : EdgeMetadata) (visibleSide : String) (fork : Bool)
      (dm : Option DiagramMetadata) (initialPosition : Option Point) (p : SvgParameters),
      getHalfVisibleHalfEdges none edge visibleSide fork dm initialPosition p = (none, none)) ∧
    (∀ (edge : EdgeMetadata) (visibleSide : String) (fork : Bool)
      (dm : Option DiagramMetadata) (initialPosition : Option Point) (p : SvgParameters),
      getHalfVisibleHalfEdges (some []) edge visibleSide fork dm initialPosition p = (none, none)) ∧
    (∀ (q : Point) (rest : List Point) (edge : EdgeMetadata) (visibleSide : String) (fork : Bool)
      (dm : Option DiagramMetadata) (initialPosition : Option Point) (p : SvgParameters),
      dm.bind (fun d => d.nodes.find? (fun node =>
        node.svgId == (if visibleSide = "1" then edge.node1 else edge.node2))) = none →
      getHalfVisibleHalfEdges (some (q :: rest)) edge visibleSide fork dm initialPosition p =
        (none, none)) := by
  refine ⟨?_, ?_, ?_, ?_, ?_, ?_⟩
  · intro edge iEdge cnt dm p h
    rcases hn1 : getNodeMetadata edge.node1 dm with _ | n1 <;>
      rcases hn2 : getNodeMetadata edge.node2 dm with _ | n2 <;>
      simp only [getHalfEdges, hn1, hn2]
    rcases h with h | h
    · rw [h] at hn1
      cases hn1
    · rw [h] at hn2
      cases hn2
  · intro edge threeWtMoved initialPosition dm p
    rfl
  · intro pts edge threeWtMoved initialPosition dm p h
    rcases hn1 : getNodeMetadata edge.node1 dm with _ | n1 <;>
      rcases hn2 : getNodeMetadata edge.node2 dm with _ | n2 <;>
      simp only [getThreeWtHalfEdge, hn1, hn2]
    rcases h with h | h
    · rw [h] at hn1
      cases hn1
    · rw [h] at hn2
      cases hn2
  · intro edge visibleSide fork dm initialPosition p
    rfl
  · intro edge visibleSide fork dm initialPosition p
    rfl
  · intro q rest edge visibleSide fork dm initialPosition p h
    simp only [getHalfVisibleHalfEdges, List.length_cons, h]
    rw [if_neg (Nat.succ_ne_zero rest.length)]

/-- Witness for claim C5's theorem: on an empty metadata document every
lookup fails, so both half-edges of a concrete edge come back null, the
three-windings half-edge comes back undefined, and a nonempty polyline with
a missing visible node yields null half-edges. -/
theorem halfEdge_missing_metadata_witness :
    getHalfEdges ⟨"e", "edge", "n1", "n2", "b1", "b2", none, none, none, none, none, none⟩
        0 1 (some ⟨[], [], []⟩) ⟨none⟩ = (none, none) ∧
    getThreeWtHalfEdge (some [⟨0, 0⟩])
        ⟨"e", "edge", "n1", "n2", "b1", "b2", none, none, none, none, none, none⟩
        false none (some ⟨[], [], []⟩) ⟨none⟩ = none ∧
    getHalfVisibleHalfEdges (some [⟨0, 0⟩, ⟨1, 1⟩])
        ⟨"e", "edge", "n1", "n2", "b1", "b2", none, none, none, none, none, none⟩
        "1" false (some ⟨[], [], []⟩) none ⟨none⟩ = (none, none) :=
  ⟨halfEdge_missing_metadata.1
      ⟨"e", "edge", "n1", "n2", "b1", "b2", none, none, none, none, none, none⟩
      0 1 (some ⟨[], [], []⟩) ⟨none⟩ (Or.inl rfl),
    halfEdge_missing_metadata.2.2.1 [⟨0, 0⟩]
      ⟨"e", "edge", "n1", "n2", "b1", "b2", none, none, none, none, none, none⟩
      false none (some ⟨[], [], []⟩) ⟨none⟩ (Or.inl rfl),
    halfEdge_missing_metadata.2.2.2.2.2 ⟨0, 0⟩ [⟨1, 1⟩]
      ⟨"e", "edge", "n1", "n2", "b1", "b2", none, none, none, none, none, none⟩
      "1" false (some ⟨[], [], []⟩) none ⟨none⟩ rfl⟩

/-- The indexed slice loop of `annulusSlices` visits exactly the pairs of
consecutive angles: the out-of-range read of the final iteration contributes
nothing. -/
theorem annulusSlices_eq_zip (angles : List ℝ) (nodeRadius : NodeRadius) (halfWidth : ℝ) :
    annulusSlices angles nodeRadius halfWidth =
      ((angles.zip angles.tail).map
        (fun ab => annulusSlice nodeRadius halfWidth ab.1 ab.2)).flatten := by
  induction angles with
  | nil => rfl
  | cons a rest ih =>
    cases rest with
    | nil => rfl
    | cons b rest' =>
      unfold annulusSlices
      rw [List.length_cons, List.range_succ_eq_map, List.map_cons, List.map_map]
      have hcomp :
          ((fun index => match (a :: b :: rest')[index]?, (a :: b :: rest')[index + 1]? with
            | some angle, some angleNext => annulusSlice nodeRadius halfWidth angle angleNext
            | _, _ => ([] : List PathSeg)) ∘ Nat.succ) =
          (fun index => match (b :: rest')[index]?, (b :: rest')[index + 1]? with
            | some angle, some angleNext => annulusSlice nodeRadius halfWidth angle angleNext
            | _, _ => ([] : List PathSeg)) := by
        funext index
        simp only [Function.comp_apply, List.getElem?_cons_succ]
      rw [hcomp]
      have ihr := ih
      unfold annulusSlices at ihr
      rw [List.flatten_cons, ihr]
      simp only [List.getElem?_cons_zero, List.getElem?_cons_succ, List.zip_cons_cons,
        List.tail_cons, List.map_cons, List.flatten_cons]

/-- Claim C7: with an empty angle list `getFragmentedAnnulusPath` is two
full-circle arc pairs at the outer radius followed, only when the inner
radius is positive, by two arc pairs at the inner radius wound
counter-clockwise; with a non-empty list one slice is considered per pair of
consecutive angles; when either radius is zero the JavaScript inset
`halfWidth / radius` is infinite, the strict comparison guarding the slice
never holds and the slice is skipped; with both radii nonzero the slice is
emitted exactly when, after insetting both ends by `halfWidth / radius` on
the outer and inner circles, the outer arc end is strictly greater than its
start and the inner arc end strictly less than its start — inverting slices
are skipped. -/
theorem fragmentedAnnulusPath_slices :
    (∀ (nodeRadius : NodeRadius) (w : ℝ),
      getFragmentedAnnulusPath [] nodeRadius w =
        [PathSeg.move (getCirclePath nodeRadius.busOuterRadius 0 Real.pi true),
         PathSeg.move (getCirclePath nodeRadius.busOuterRadius Real.pi 0 true)] ++
        (if 0 < nodeRadius.busInnerRadius then
          [PathSeg.move (getCirclePath nodeRadius.busInnerRadius 0 Real.pi false),
           PathSeg.move (getCirclePath nodeRadius.busInnerRadius Real.pi 0 false)]
        else [])) ∧
    (∀ (angles : List ℝ) (nodeRadius : NodeRadius) (w : ℝ),
      angles ≠ [] →
      getFragmentedAnnulusPath angles nodeRadius w =
        ((angles.zip angles.tail).map
          (fun ab => annulusSlice nodeRadius (w / 2) ab.1 ab.2)).flatten) ∧
    (∀ (nodeRadius : NodeRadius) (hw a b : ℝ),
      nodeRadius.busOuterRadius = 0 ∨ nodeRadius.busInnerRadius = 0 →
      annulusSlice nodeRadius hw a b = []) ∧
    (∀ (nodeRadius : NodeRadius) (hw a b : ℝ),
      nodeRadius.busOuterRadius ≠ 0 → nodeRadius.busInnerRadius ≠ 0 →
      annulusSlice nodeRadius hw a b =
        if a + hw / nodeRadius.busOuterRadius < b - hw / nodeRadius.busOuterRadius ∧
            a + hw / nodeRadius.busInnerRadius < b - hw / nodeRadius.busInnerRadius then
          [PathSeg.move (getCirclePath nodeRadius.busOuterRadius
             (a + hw / nodeRadius.busOuterRadius) (b - hw / nodeRadius.busOuterRadius) true),
           PathSeg.line (getCirclePath nodeRadius.busInnerRadius
             (b - hw / nodeRadius.busInnerRadius) (a + hw / nodeRadius.busInnerRadius) false),
           PathSeg.close]
        else []) := by
  refine ⟨?_, ?_, ?_, ?_⟩
  · intro nodeRadius w
    rfl
  · intro angles nodeRadius w h
    unfold getFragmentedAnnulusPath
    rw [if_neg (by simpa [List.length_eq_zero] using h), annulusSlices_eq_zip]
  · intro nodeRadius hw a b h
    unfold annulusSlice
    rw [if_pos h]
  · intro nodeRadius hw a b h0 h1
    unfold annulusSlice
    rw [if_neg (not_or.mpr ⟨h0, h1⟩)]

/-- Witness for claim C7's theorem at concrete inputs: the pair-of-angles
decomposition on the default two-bus annulus, the skipped slice of the
innermost bus whose inner radius is zero, and the inset-guard
characterization for nonzero radii. -/
theorem fragmentedAnnulusPath_slices_witness :
    (getFragmentedAnnulusPath [0, 3] ⟨42.5, 57.5, 60⟩ 15 =
      (([(0, 3)] : List (ℝ × ℝ)).map
        (fun ab => annulusSlice ⟨42.5, 57.5, 60⟩ (15 / 2) ab.1 ab.2)).flatten) ∧
    annulusSlice ⟨0, 57.5, 60⟩ (15 / 2) 0 3 = [] ∧
    annulusSlice ⟨42.5, 57.5, 60⟩ (15 / 2) 0 3 =
      (if (0 : ℝ) + 15 / 2 / 57.5 < 3 - 15 / 2 / 57.5 ∧
          (0 : ℝ) + 15 / 2 / 42.5 < 3 - 15 / 2 / 42.5 then
        [PathSeg.move (getCirclePath 57.5 (0 + 15 / 2 / 57.5) (3 - 15 / 2 / 57.5) true),
         PathSeg.line (getCirclePath 42.5 (3 - 15 / 2 / 42.5) (0 + 15 / 2 / 42.5) false),
         PathSeg.close]
      else []) :=
  ⟨fragmentedAnnulusPath_slices.2.1 [0, 3] ⟨42.5, 57.5, 60⟩ 15 (by simp),
   fragmentedAnnulusPath_slices.2.2.1 ⟨0, 57.5, 60⟩ (15 / 2) 0 3 (Or.inr rfl),
   fragmentedAnnulusPath_slices.2.2.2 ⟨42.5, 57.5, 60⟩ (15 / 2) 0 3
     (by norm_num) (by norm_num)⟩

/-- The distance examined by iteration `k` of the `addPointToList` loop: the
squared segment distance from the candidate point to the `k`-th pair of
consecutive points, `none` past the end of the list. -/
noncomputable def segmentDistance (p : Point) (l : List PointMetadata) (k : ℕ) : Option ℝ :=
  match l.drop k with
  | a :: b :: _ => getSquareDistanceFromSegment p (toPoint a) (toPoint b)
  | _ => none

@[simp] theorem segmentDistance_nil (p : Point) (k : ℕ) : segmentDistance p [] k = none := by
  unfold segmentDistance
  rw [List.drop_nil]

@[simp] theorem segmentDistance_single (p : Point) (a : PointMetadata) (k : ℕ) :
    segmentDistance p [a] k = none := by
  unfold segmentDistance
  cases k with
  | zero => rfl
  | succ k' => rw [List.drop_succ_cons, List.drop_nil]

@[simp] theorem segmentDistance_succ (p : Point) (a : PointMetadata) (l : List PointMetadata)
    (k : ℕ) : segmentDistance p (a :: l) (k + 1) = segmentDistance p l k := by
  unfold segmentDistance
  rw [List.drop_succ_cons]

theorem segmentDistance_zero (p : Point) (a b : PointMetadata) (rest : List PointMetadata) :
    segmentDistance p (a :: b :: rest) 0 =
      getSquareDistanceFromSegment p (toPoint a) (toPoint b) := rfl

theorem segmentDistance_eq_none (p : Point) (l : List PointMetadata) (k : ℕ)
    (h : l.length ≤ k + 1) : segmentDistance p l k = none := by
  unfold segmentDistance
  rcases hdrop : l.drop k with _ | ⟨a, rest⟩
  · rfl
  · rcases rest with _ | ⟨b, rest'⟩
    · rfl
    · have hlen := congrArg List.length hdrop
      rw [List.length_drop] at hlen
      simp only [List.length_cons] at hlen
      omega

/-- Loop invariant of the `addPointToList` scan: the final running minimum is
no larger than the initial one and than every examined segment distance, and
the final index is either the initial one (with the minimum untouched) or
the position of a segment achieving the final minimum. -/
theorem bestScan_spec (p : Point) :
    ∀ (l : List PointMetadata) (i : ℕ) (minD : ℝ) (best : ℕ),
      (bestScan p l i minD best).1 ≤ minD ∧
      (∀ k d, segmentDistance p l k = some d → (bestScan p l i minD best).1 ≤ d) ∧
      (((bestScan p l i minD best).1 = minD ∧ (bestScan p l i minD best).2 = best) ∨
        ∃ k, k + 1 < l.length ∧
          segmentDistance p l k = some (bestScan p l i minD best).1 ∧
          (bestScan p l i minD best).2 = i + k) := by
  intro l
  induction l with
  | nil =>
    intro i minD best
    refine ⟨le_refl _, ?_, Or.inl ⟨rfl, rfl⟩⟩
    intro k d hk
    simp at hk
  | cons a rest ih =>
    intro i minD best
    cases rest with
    | nil =>
      refine ⟨le_refl _, ?_, Or.inl ⟨rfl, rfl⟩⟩
      intro k d hk
      simp at hk
    | cons b rest' =>
      simp only [bestScan]
      rcases hd : getSquareDistanceFromSegment p (toPoint a) (toPoint b) with _ | d
      · simp only [hd]
        obtain ⟨ih1, ih2, ih3⟩ := ih (i + 1) minD best
        refine ⟨ih1, ?_, ?_⟩
        · intro k d' hk
          cases k with
          | zero =>
            rw [segmentDistance_zero, hd] at hk
            cases hk
          | succ k' =>
            rw [segmentDistance_succ] at hk
            exact ih2 k' d' hk
        · rcases ih3 with ⟨h1, h2⟩ | ⟨k, hk, hdist, hidx⟩
          · exact Or.inl ⟨h1, h2⟩
          · refine Or.inr ⟨k + 1, ?_, ?_, ?_⟩
            · simpa [Nat.succ_lt_succ_iff] using hk
            · rw [segmentDistance_succ]
              exact hdist
            · rw [hidx]
              omega
      · simp only [hd]
        by_cases hlt : d < minD
        · rw [if_pos hlt]
          obtain ⟨ih1, ih2, ih3⟩ := ih (i + 1) d i
          refine ⟨le_trans ih1 (le_of_lt hlt), ?_, ?_⟩
          · intro k d' hk
            cases k with
            | zero =>
              rw [segmentDistance_zero, hd] at hk
              cases hk
              exact ih1
            | succ k' =>
              rw [segmentDistance_succ] at hk
              exact ih2 k' d' hk
          · rcases ih3 with ⟨h1, h2⟩ | ⟨k, hk, hdist, hidx⟩
            · refine Or.inr ⟨0, ?_, ?_, ?_⟩
              · simp
              · rw [segmentDistance_zero, hd, h1]
              · rw [h2]
                omega
            · refine Or.inr ⟨k + 1, ?_, ?_, ?_⟩
              · simpa [Nat.succ_lt_succ_iff] using hk
              · rw [segmentDistance_succ]
                exact hdist
              · rw [hidx]
                omega
        · rw [if_neg hlt]
          obtain ⟨ih1, ih2, ih3⟩ := ih (i + 1) minD best
          refine ⟨ih1, ?_, ?_⟩
          · intro k d' hk
            cases k with
            | zero =>
              rw [segmentDistance_zero, hd] at hk
              cases hk
              exact le_trans ih1 (not_lt.mp hlt)
            | succ k' =>
              rw [segmentDistance_succ] at hk
              exact ih2 k' d' hk
          · rcases ih3 with ⟨h1, h2⟩ | ⟨k, hk, hdist, hidx⟩
            · exact Or.inl ⟨h1, h2⟩
            · refine Or.inr ⟨k + 1, ?_, ?_, ?_⟩
              · simpa [Nat.succ_lt_succ_iff] using hk
              · rw [segmentDistance_succ]
                exact hdist
              · rw [hidx]
                omega

/-- Claim C3: `addPointToList` (including the undefined-input case) returns a
list one longer than its input together with an index within bounds pointing
at the inserted point, and — whenever every consecutive segment of the
node1/existing-points/node2 chain yields a defined squared distance below
`Number.MAX_VALUE` — the insertion position minimizes the clamped-projection
squared distance over all those segments. -/
theorem addPointToList_insertion :
    (∀ (pts : Option (List PointMetadata)) (node1 node2 bendPoint : Point),
      (addPointToList pts node1 node2 bendPoint).1.length = (pts.getD []).length + 1 ∧
      (addPointToList pts node1 node2 bendPoint).2 <
        (addPointToList pts node1 node2 bendPoint).1.length ∧
      (addPointToList pts node1 node2 bendPoint).1[(addPointToList pts node1 node2 bendPoint).2]? =
        some (match pts with
          | none => (⟨bendPoint.x, bendPoint.y⟩ : PointMetadata)
          | some _ => (⟨round bendPoint.x, round bendPoint.y⟩ : PointMetadata))) ∧
    (∀ (l : List PointMetadata) (node1 node2 bendPoint : Point),
      (∀ k, k + 1 < (⟨node1.x, node1.y⟩ :: l ++ [⟨node2.x, node2.y⟩] : List PointMetadata).length →
        segmentDistance bendPoint (⟨node1.x, node1.y⟩ :: l ++ [⟨node2.x, node2.y⟩]) k ≠ none) →
      (∀ k d, segmentDistance bendPoint (⟨node1.x, node1.y⟩ :: l ++ [⟨node2.x, node2.y⟩]) k = some d →
        d < (jsMaxValue : ℝ)) →
      ∃ dmin,
        segmentDistance bendPoint (⟨node1.x, node1.y⟩ :: l ++ [⟨node2.x, node2.y⟩])
          (addPointToList (some l) node1 node2 bendPoint).2 = some dmin ∧
        ∀ k d, segmentDistance bendPoint (⟨node1.x, node1.y⟩ :: l ++ [⟨node2.x, node2.y⟩]) k =
            some d → dmin ≤ d) := by
  constructor
  · intro pts node1 node2 bendPoint
    cases pts with
    | none => exact ⟨rfl, Nat.zero_lt_one, rfl⟩
    | some l =>
      simp only [addPointToList]
      set idx := (bestScan bendPoint (⟨node1.x, node1.y⟩ :: l ++ [⟨node2.x, node2.y⟩]) 0
        (jsMaxValue : ℝ) 0).2 with hidxdef
      obtain ⟨-, -, h3⟩ :=
        bestScan_spec bendPoint (⟨node1.x, node1.y⟩ :: l ++ [⟨node2.x, node2.y⟩]) 0
          (jsMaxValue : ℝ) 0
      rw [← hidxdef] at h3
      have hb : idx ≤ l.length := by
        rcases h3 with ⟨-, h2⟩ | ⟨k, hk, -, hk2⟩
        · rw [h2]
          exact Nat.zero_le _
        · rw [hk2]
          simp only [List.length_cons, List.length_append, List.length_nil] at hk
          omega
      refine ⟨?_, ?_, ?_⟩
      · simp [List.length_take, List.length_drop]
        omega
      · simp [List.length_take, List.length_drop]
        omega
      · rw [List.getElem?_append_right (by simp [List.length_take])]
        simp [List.length_take, Nat.min_eq_left hb]
  · intro l node1 node2 bendPoint hsome hmax
    obtain ⟨-, h2, h3⟩ :=
      bestScan_spec bendPoint (⟨node1.x, node1.y⟩ :: l ++ [⟨node2.x, node2.y⟩]) 0
        (jsMaxValue : ℝ) 0
    rcases h3 with ⟨hm, -⟩ | ⟨k, -, hdist, hidx⟩
    · exfalso
      have h0 := hsome 0 (by simp)
      rcases hd0 : segmentDistance bendPoint (⟨node1.x, node1.y⟩ :: l ++ [⟨node2.x, node2.y⟩]) 0
        with _ | d0
      · exact h0 hd0
      · have hle := h2 0 d0 hd0
        have hlt := hmax 0 d0 hd0
        rw [hm] at hle
        linarith
    · refine ⟨(bestScan bendPoint (⟨node1.x, node1.y⟩ :: l ++ [⟨node2.x, node2.y⟩]) 0
        (jsMaxValue : ℝ) 0).1, ?_, ?_⟩
      · show segmentDistance bendPoint (⟨node1.x, node1.y⟩ :: l ++ [⟨node2.x, node2.y⟩])
          (bestScan bendPoint (⟨node1.x, node1.y⟩ :: l ++ [⟨node2.x, node2.y⟩]) 0
            (jsMaxValue : ℝ) 0).2 = _
        rw [hidx, Nat.zero_add]
        exact hdist
      · exact h2

/-- Witness for claim C3's theorem: the minimization clause applied to one
existing point `(1, 0)` between nodes `(0, 0)` and `(2, 0)` for the new
point `(1, 1)`; every segment of the chain is non-degenerate with distance
below `Number.MAX_VALUE`. -/
theorem addPointToList_insertion_witness :
    ∃ dmin,
      segmentDistance ⟨1, 1⟩
        ((⟨0, 0⟩ : PointMetadata) :: [(⟨1, 0⟩ : PointMetadata)] ++ [(⟨2, 0⟩ : PointMetadata)])
        (addPointToList (some [⟨1, 0⟩]) ⟨0, 0⟩ ⟨2, 0⟩ ⟨1, 1⟩).2 = some dmin ∧
      ∀ k d, segmentDistance ⟨1, 1⟩
          ((⟨0, 0⟩ : PointMetadata) :: [(⟨1, 0⟩ : PointMetadata)] ++ [(⟨2, 0⟩ : PointMetadata)]) k =
          some d → dmin ≤ d := by
  refine addPointToList_insertion.2 [⟨1, 0⟩] ⟨0, 0⟩ ⟨2, 0⟩ ⟨1, 1⟩ ?_ ?_
  · intro k hk
    simp only [List.cons_append, List.length_cons, List.length_append, List.length_nil] at hk
    rcases k with _ | k
    · simp [segmentDistance, getSquareDistanceFromSegment, toPoint]
    rcases k with _ | k
    · simp [segmentDistance, getSquareDistanceFromSegment, toPoint]
      norm_num
    · omega
  · intro k d hd
    rcases k with _ | k
    · simp only [segmentDistance, getSquareDistanceFromSegment, getValue, toPoint,
        List.cons_append, List.drop_zero] at hd
      norm_num at hd
      rw [← hd, jsMaxValue]
      push_cast
      norm_num
    rcases k with _ | k
    · simp only [segmentDistance, getSquareDistanceFromSegment, getValue, toPoint,
        List.cons_append, List.drop_succ_cons, List.drop_zero] at hd
      norm_num at hd
      rw [← hd, jsMaxValue]
      push_cast
      norm_num
    · rw [segmentDistance_eq_none _ _ _ (by simp)] at hd
      cases hd

theorem edgeIndices_cons (kv : String × LinePointRef) (m : IndexMap) (e : String) :
    edgeIndices (kv :: m) e =
      if kv.2.edgeId = e then kv.2.index :: edgeIndices m e else edgeIndices m e := by
  unfold edgeIndices
  rw [List.filter_cons]
  by_cases h : kv.2.edgeId = e
  · rw [if_pos (by simpa using h), if_pos h, List.map_cons]
  · rw [if_neg (by simpa using h), if_neg h]

theorem edgeIndices_append (m1 m2 : IndexMap) (e : String) :
    edgeIndices (m1 ++ m2) e = edgeIndices m1 e ++ edgeIndices m2 e := by
  unfold edgeIndices
  rw [List.filter_append, List.map_append]

/-- Shifting the stored indices of the handles of edge `e` at or after
position `i` (all keys differing from `h`) maps the per-edge index list
pointwise. -/
theorem edgeIndices_map_adjust (f : ℤ → ℤ) (h e : String) (i : ℤ) :
    ∀ m : IndexMap, (∀ kv ∈ m, kv.1 ≠ h) →
      edgeIndices (List.map (fun kv =>
          if kv.1 ≠ h ∧ kv.2.edgeId = e ∧ i ≤ kv.2.index then
            (kv.1, (⟨kv.2.edgeId, f kv.2.index⟩ : LinePointRef))
          else kv) m) e =
        (edgeIndices m e).map (fun x => if i ≤ x then f x else x) := by
  intro m
  induction m with
  | nil =>
    intro _
    rfl
  | cons kv m ih =>
    intro hk
    have hkv : kv.1 ≠ h := hk kv (List.mem_cons_self kv m)
    have hrest := fun kv h => hk kv (List.mem_cons_of_mem _ h)
    rw [List.map_cons]
    by_cases he : kv.2.edgeId = e
    · by_cases hi : i ≤ kv.2.index
      · rw [if_pos ⟨hkv, he, hi⟩, edgeIndices_cons, edgeIndices_cons]
        simp only [he, if_pos]
        rw [List.map_cons, if_pos hi, ih hrest]
      · rw [if_neg (by tauto), edgeIndices_cons, edgeIndices_cons]
        simp only [he, if_pos]
        rw [List.map_cons, if_neg hi, ih hrest]
    · rw [if_neg (by tauto), edgeIndices_cons, edgeIndices_cons]
      simp only [he, if_neg, if_false]
      exact ih hrest

/-- Shifting the handles of edge `e` leaves every other edge's index list
unchanged. -/
theorem edgeIndices_map_adjust_other (f : ℤ → ℤ) (h e e' : String) (i : ℤ) (hne : e' ≠ e) :
    ∀ m : IndexMap,
      edgeIndices (List.map (fun kv =>
          if kv.1 ≠ h ∧ kv.2.edgeId = e ∧ i ≤ kv.2.index then
            (kv.1, (⟨kv.2.edgeId, f kv.2.index⟩ : LinePointRef))
          else kv) m) e' =
        edgeIndices m e' := by
  intro m
  induction m with
  | nil => rfl
  | cons kv m ih =>
    rw [List.map_cons]
    by_cases hc : kv.1 ≠ h ∧ kv.2.edgeId = e ∧ i ≤ kv.2.index
    · rw [if_pos hc, edgeIndices_cons, edgeIndices_cons]
      have : ¬kv.2.edgeId = e' := by
        rw [hc.2.1]
        exact fun hh => hne hh.symm
      rw [if_neg this, if_neg this]
      exact ih
    · rw [if_neg hc, edgeIndices_cons, edgeIndices_cons]
      split_ifs <;> simp [ih]

/-- Committing a bend handle appends its index and shifts the other handles
of the edge: the per-edge index list of the updated map. -/
theorem bendIndexUpdate_edgeIndices (m : IndexMap) (h e : String) (i : ℤ)
    (hk : ∀ kv ∈ m, kv.1 ≠ h) :
    edgeIndices (bendIndexUpdate m h e i) e =
      (edgeIndices m e).map (fun x => if i ≤ x then x + 1 else x) ++ [i] := by
  unfold bendIndexUpdate mapSet
  rw [if_neg (by
    intro hcontra
    rw [List.any_eq_true] at hcontra
    obtain ⟨kv, hkv, hkv2⟩ := hcontra
    exact hk kv hkv (by simpa using hkv2))]
  rw [List.map_append, edgeIndices_append]
  rw [edgeIndices_map_adjust (fun x => x + 1) h e i m hk]
  have hone : List.map (fun kv =>
      if kv.1 ≠ h ∧ kv.2.edgeId = e ∧ i ≤ kv.2.index then
        (kv.1, (⟨kv.2.edgeId, kv.2.index + 1⟩ : LinePointRef))
      else kv) [(h, (⟨e, i⟩ : LinePointRef))] = [(h, (⟨e, i⟩ : LinePointRef))] := by
    simp
  rw [hone, edgeIndices_cons, if_pos rfl]
  rfl

/-- Committing a bend handle for edge `e` leaves every other edge's index
list unchanged. -/
theorem bendIndexUpdate_edgeIndices_other (m : IndexMap) (h e : String) (i : ℤ)
    (hk : ∀ kv ∈ m, kv.1 ≠ h) (e' : String) (hne : e' ≠ e) :
    edgeIndices (bendIndexUpdate m h e i) e' = edgeIndices m e' := by
  unfold bendIndexUpdate mapSet
  rw [if_neg (by
    intro hcontra
    rw [List.any_eq_true] at hcontra
    obtain ⟨kv, hkv, hkv2⟩ := hcontra
    exact hk kv hkv (by simpa using hkv2))]
  rw [List.map_append, edgeIndices_append]
  rw [edgeIndices_map_adjust_other (fun x => x + 1) h e e' i hne]
  have hone : List.map (fun kv =>
      if kv.1 ≠ h ∧ kv.2.edgeId = e ∧ i ≤ kv.2.index then
        (kv.1, (⟨kv.2.edgeId, kv.2.index + 1⟩ : LinePointRef))
      else kv) [(h, (⟨e, i⟩ : LinePointRef))] = [(h, (⟨e, i⟩ : LinePointRef))] := by
    simp
  rw [hone, edgeIndices_cons, if_neg (fun hh => hne hh.symm),
    show edgeIndices ([] : IndexMap) e' = [] from rfl, List.append_nil]

/-- Removing a bend handle shifts the other handles of its edge down and
deletes the handle's own entry: the straighten bookkeeping on a map split
around the removed handle. -/
theorem straightenIndexUpdate_decomp (m₁ m₂ : IndexMap) (h e : String) (i : ℤ)
    (hk1 : ∀ kv ∈ m₁, kv.1 ≠ h) (hk2 : ∀ kv ∈ m₂, kv.1 ≠ h) :
    straightenIndexUpdate (m₁ ++ (h, (⟨e, i⟩ : LinePointRef)) :: m₂) h e i =
      List.map (fun kv =>
        if kv.1 ≠ h ∧ kv.2.edgeId = e ∧ i ≤ kv.2.index then
          (kv.1, (⟨kv.2.edgeId, kv.2.index - 1⟩ : LinePointRef))
        else kv) (m₁ ++ m₂) := by
  unfold straightenIndexUpdate
  rw [List.map_filter]
  have hfun : ((fun kv : String × LinePointRef => decide (kv.1 ≠ h)) ∘ (fun kv =>
      if kv.1 ≠ h ∧ kv.2.edgeId = e ∧ i ≤ kv.2.index then
        (kv.1, (⟨kv.2.edgeId, kv.2.index - 1⟩ : LinePointRef))
      else kv)) = fun kv : String × LinePointRef => decide (kv.1 ≠ h) := by
    funext kv
    by_cases hc : kv.1 ≠ h ∧ kv.2.edgeId = e ∧ i ≤ kv.2.index
    · rw [Function.comp_apply, if_pos hc]
    · rw [Function.comp_apply, if_neg hc]
  rw [hfun, List.filter_append, List.filter_cons]
  rw [List.filter_eq_self.mpr (by
    intro kv hkv
    simpa using hk1 kv hkv)]
  rw [List.filter_eq_self.mpr (by
    intro kv hkv
    simpa using hk2 kv hkv)]
  rw [if_neg (by simp)]

/-- Claim C4: starting from a bend-handle map whose stored indices for an
edge are exactly the positions `0 .. n-1` of that edge's `bendingPoints`
list, committing a new bend handle at insertion position `i` (which shifts
every other handle of the edge with stored index ≥ `i` up) restores the
invariant for the new length `n + 1`, and removing the handle stored at
position `i` (which shifts every other handle of the edge with stored index
≥ `i` down and deletes the removed handle's own mapping) restores it for
`n - 1`; both operations leave every other edge's handle indices
unchanged. -/
theorem bendIndexMap_consistency :
    (∀ (m : IndexMap) (h e : String) (i : ℤ) (n : ℕ),
      (∀ kv ∈ m, kv.1 ≠ h) →
      indicesComplete m e n → 0 ≤ i → i ≤ (n : ℤ) →
      indicesComplete (bendIndexUpdate m h e i) e (n + 1) ∧
      ∀ e', e' ≠ e → edgeIndices (bendIndexUpdate m h e i) e' = edgeIndices m e') ∧
    (∀ (m : IndexMap) (h e : String) (i : ℤ) (n : ℕ),
      (List.map Prod.fst m).Nodup →
      (h, (⟨e, i⟩ : LinePointRef)) ∈ m →
      indicesComplete m e n →
      indicesComplete (straightenIndexUpdate m h e i) e (n - 1) ∧
      ∀ e', e' ≠ e → edgeIndices (straightenIndexUpdate m h e i) e' = edgeIndices m e') := by
  constructor
  · intro m h e i n hk hc hi0 hin
    obtain ⟨hnd, hmem⟩ := hc
    refine ⟨⟨?_, ?_⟩, ?_⟩
    · rw [bendIndexUpdate_edgeIndices m h e i hk, List.nodup_append]
      refine ⟨?_, List.nodup_singleton i, ?_⟩
      · refine hnd.map ?_
        intro x y hxy
        simp only at hxy
        split_ifs at hxy <;> omega
      · intro x hx hx2
        rw [List.mem_singleton] at hx2
        subst hx2
        obtain ⟨y, hy, hby⟩ := List.mem_map.mp hx
        split_ifs at hby <;> omega
    · intro j
      rw [bendIndexUpdate_edgeIndices m h e i hk]
      rw [List.mem_append, List.mem_map, List.mem_singleton]
      push_cast
      constructor
      · rintro (⟨x, hx, rfl⟩ | rfl)
        · have hxb := (hmem x).mp hx
          split_ifs <;> omega
        · omega
      · intro hj
        by_cases hji : j < i
        · refine Or.inl ⟨j, (hmem j).mpr ⟨by omega, by omega⟩, ?_⟩
          rw [if_neg (by omega)]
        · by_cases hjeq : j = i
          · exact Or.inr hjeq
          · refine Or.inl ⟨j - 1, (hmem (j - 1)).mpr ⟨by omega, by omega⟩, ?_⟩
            rw [if_pos (by omega)]
            omega
    · intro e' hne
      exact bendIndexUpdate_edgeIndices_other m h e i hk e' hne
  · intro m h e i n hnd hmem hc
    obtain ⟨m₁, m₂, rfl⟩ := List.append_of_mem hmem
    rw [List.map_append, List.map_cons] at hnd
    obtain ⟨nd1, nd2, disj⟩ := List.nodup_append.mp hnd
    obtain ⟨hnotin2, nd2x⟩ := List.nodup_cons.mp nd2
    have hk1 : ∀ kv ∈ m₁, kv.1 ≠ h := by
      intro kv hkv heq
      have hmm : kv.1 ∈ List.map Prod.fst m₁ := List.mem_map_of_mem Prod.fst hkv
      rw [heq] at hmm
      exact disj hmm (List.mem_cons_self _ _)
    have hk2 : ∀ kv ∈ m₂, kv.1 ≠ h := by
      intro kv hkv heq
      have hmm : kv.1 ∈ List.map Prod.fst m₂ := List.mem_map_of_mem Prod.fst hkv
      rw [heq] at hmm
      exact hnotin2 hmm
    obtain ⟨hndE, hmemE⟩ := hc
    have hLde : edgeIndices (m₁ ++ (h, (⟨e, i⟩ : LinePointRef)) :: m₂) e =
        edgeIndices m₁ e ++ i :: edgeIndices m₂ e := by
      rw [edgeIndices_append, edgeIndices_cons, if_pos rfl]
    rw [hLde] at hndE
    have hibound : 0 ≤ i ∧ i < (n : ℤ) := (hmemE i).mp (by
      rw [hLde, List.mem_append]
      exact Or.inr (List.mem_cons_self _ _))
    have hn1 : 1 ≤ n := by omega
    obtain ⟨ndA, ndiB, disjE⟩ := List.nodup_append.mp hndE
    obtain ⟨hiB, ndB⟩ := List.nodup_cons.mp ndiB
    have hiA : i ∉ edgeIndices m₁ e := fun hmemA => disjE hmemA (List.mem_cons_self _ _)
    have hndAB : (edgeIndices m₁ e ++ edgeIndices m₂ e).Nodup :=
      List.nodup_append.mpr ⟨ndA, ndB, fun a ha hb => disjE ha (List.mem_cons_of_mem _ hb)⟩
    have hmemAB : ∀ j : ℤ, j ∈ edgeIndices m₁ e ++ edgeIndices m₂ e ↔
        0 ≤ j ∧ j < (n : ℤ) ∧ j ≠ i := by
      intro j
      constructor
      · intro hj
        rcases List.mem_append.mp hj with hjA | hjB
        · have hb := (hmemE j).mp (by
            rw [hLde, List.mem_append]
            exact Or.inl hjA)
          exact ⟨hb.1, hb.2, fun hji => hiA (hji ▸ hjA)⟩
        · have hb := (hmemE j).mp (by
            rw [hLde, List.mem_append]
            exact Or.inr (List.mem_cons_of_mem _ hjB))
          exact ⟨hb.1, hb.2, fun hji => hiB (hji ▸ hjB)⟩
      · rintro ⟨h0, hn2, hnei⟩
        have hb := (hmemE j).mpr ⟨h0, hn2⟩
        rw [hLde] at hb
        rcases List.mem_append.mp hb with hjA | hjB
        · exact List.mem_append.mpr (Or.inl hjA)
        · rcases List.mem_cons.mp hjB with hj | hjB2
          · exact absurd hj hnei
          · exact List.mem_append.mpr (Or.inr hjB2)
    have hdec := straightenIndexUpdate_decomp m₁ m₂ h e i hk1 hk2
    have hkAB : ∀ kv ∈ m₁ ++ m₂, kv.1 ≠ h := by
      intro kv hkv
      rcases List.mem_append.mp hkv with h1 | h2
      exacts [hk1 kv h1, hk2 kv h2]
    have hEq : edgeIndices
        (straightenIndexUpdate (m₁ ++ (h, (⟨e, i⟩ : LinePointRef)) :: m₂) h e i) e =
        (edgeIndices (m₁ ++ m₂) e).map (fun x => if i ≤ x then x - 1 else x) := by
      rw [hdec]
      exact edgeIndices_map_adjust (fun x => x - 1) h e i (m₁ ++ m₂) hkAB
    have hmemAB2 : ∀ j : ℤ, j ∈ edgeIndices (m₁ ++ m₂) e ↔
        0 ≤ j ∧ j < (n : ℤ) ∧ j ≠ i := by
      intro j
      rw [edgeIndices_append]
      exact hmemAB j
    have hndAB2 : (edgeIndices (m₁ ++ m₂) e).Nodup := by
      rw [edgeIndices_append]
      exact hndAB
    refine ⟨⟨?_, ?_⟩, ?_⟩
    · rw [hEq]
      refine hndAB2.map_on ?_
      intro x hx y hy hxy
      have hxne := ((hmemAB2 x).mp hx).2.2
      have hyne := ((hmemAB2 y).mp hy).2.2
      split_ifs at hxy <;> omega
    · intro j
      rw [hEq, List.mem_map]
      have hcast : (((n - 1 : ℕ)) : ℤ) = (n : ℤ) - 1 := by omega
      rw [hcast]
      constructor
      · rintro ⟨x, hx, rfl⟩
        have hxf := (hmemAB2 x).mp hx
        split_ifs <;> omega
      · intro hj
        by_cases hji : j < i
        · refine ⟨j, (hmemAB2 j).mpr ⟨by omega, by omega, by omega⟩, ?_⟩
          rw [if_neg (by omega)]
        · refine ⟨j + 1, (hmemAB2 (j + 1)).mpr ⟨by omega, by omega, by omega⟩, ?_⟩
          rw [if_pos (by omega)]
          omega
    · intro e' hne
      rw [hdec, edgeIndices_map_adjust_other (fun x => x - 1) h e e' i hne]
      rw [edgeIndices_append, edgeIndices_append, edgeIndices_cons,
        if_neg (fun hh => hne (hh.symm : e' = e) |>.elim)]

/-- Witness for claim C4's theorem at a concrete map: an edge `L` with two
committed handles (indices 0 and 1); inserting a new handle at position 1
yields indices exactly `0, 1, 2`, and removing the handle at position 1 of
the original map yields index `0` alone. -/
theorem bendIndexMap_consistency_witness :
    (indicesComplete (bendIndexUpdate [("p0", ⟨"L", 0⟩), ("p1", ⟨"L", 1⟩)] "p2" "L" 1) "L" 3 ∧
      ∀ e', e' ≠ "L" →
        edgeIndices (bendIndexUpdate [("p0", ⟨"L", 0⟩), ("p1", ⟨"L", 1⟩)] "p2" "L" 1) e' =
          edgeIndices [("p0", ⟨"L", 0⟩), ("p1", ⟨"L", 1⟩)] e') ∧
    (indicesComplete (straightenIndexUpdate [("p0", ⟨"L", 0⟩), ("p1", ⟨"L", 1⟩)] "p1" "L" 1) "L" 1 ∧
      ∀ e', e' ≠ "L" →
        edgeIndices (straightenIndexUpdate [("p0", ⟨"L", 0⟩), ("p1", ⟨"L", 1⟩)] "p1" "L" 1) e' =
          edgeIndices [("p0", ⟨"L", 0⟩), ("p1", ⟨"L", 1⟩)] e') := by
  have hval : edgeIndices [("p0", (⟨"L", 0⟩ : LinePointRef)), ("p1", ⟨"L", 1⟩)] "L" = [0, 1] := by
    decide
  have hm : indicesComplete [("p0", (⟨"L", 0⟩ : LinePointRef)), ("p1", ⟨"L", 1⟩)] "L" 2 := by
    constructor
    · rw [hval]
      decide
    · intro j
      rw [hval]
      constructor
      · intro hj
        simp at hj
        omega
      · intro hj
        simp
        omega
  constructor
  · exact bendIndexMap_consistency.1 [("p0", ⟨"L", 0⟩), ("p1", ⟨"L", 1⟩)] "p2" "L" 1 2
      (by decide) hm (by omega) (by omega)
  · exact bendIndexMap_consistency.2 [("p0", ⟨"L", 0⟩), ("p1", ⟨"L", 1⟩)] "p1" "L" 1 2
      (by decide) (List.mem_cons_of_mem _ (List.mem_cons_self _ _)) hm

theorem getDistance_nonneg (p q : Point) : 0 ≤ getDistance p q :=
  Real.sqrt_nonneg _

theorem getDistance_comm (p q : Point) : getDistance p q = getDistance q p := by
  unfold getDistance
  rw [show (p.x - q.x) ^ 2 = (q.x - p.x) ^ 2 by ring, show (p.y - q.y) ^ 2 = (q.y - p.y) ^ 2 by ring]

theorem getDistance_pos (p q : Point) (h : p ≠ q) : 0 < getDistance p q := by
  unfold getDistance
  apply Real.sqrt_pos.mpr
  have hxy : p.x ≠ q.x ∨ p.y ≠ q.y := by
    by_contra hc
    push_neg at hc
    refine h ?_
    cases p
    cases q
    simp only [Point.mk.injEq]
    exact ⟨hc.1, hc.2⟩
  rcases hxy with hx | hy
  · have h1 : (p.x - q.x) ^ 2 ≠ 0 := pow_ne_zero 2 (sub_ne_zero.mpr hx)
    have h2 : 0 < (p.x - q.x) ^ 2 := lt_of_le_of_ne (sq_nonneg _) (Ne.symm h1)
    exact add_pos_of_pos_of_nonneg h2 (sq_nonneg _)
  · have h1 : (p.y - q.y) ^ 2 ≠ 0 := pow_ne_zero 2 (sub_ne_zero.mpr hy)
    have h2 : 0 < (p.y - q.y) ^ 2 := lt_of_le_of_ne (sq_nonneg _) (Ne.symm h1)
    exact add_pos_of_nonneg_of_pos (sq_nonneg _) h2

theorem getDistance_eval (a b : Point) :
    getDistance a b = Real.sqrt ((a.x - b.x) ^ 2 + (a.y - b.y) ^ 2) := rfl

theorem getPointAtDistance_eval (p q : Point) (r : ℝ) :
    getPointAtDistance p q r =
      ⟨p.x + r / getDistance p q * (q.x - p.x), p.y + r / getDistance p q * (q.y - p.y)⟩ := rfl

/-- The point at distance `r` from `p` towards `q` is indeed at distance `r`
from `p`. -/
theorem getDistance_getPointAtDistance (p q : Point) (r : ℝ) (hpq : p ≠ q) (hr0 : 0 ≤ r) :
    getDistance p (getPointAtDistance p q r) = r := by
  have hL : 0 < getDistance p q := getDistance_pos p q hpq
  rw [getPointAtDistance_eval, getDistance_eval]
  dsimp only
  rw [show (p.x - (p.x + r / getDistance p q * (q.x - p.x))) ^ 2 +
      (p.y - (p.y + r / getDistance p q * (q.y - p.y))) ^ 2 =
      (r / getDistance p q) ^ 2 * ((q.x - p.x) ^ 2 + (q.y - p.y) ^ 2) by ring]
  rw [Real.sqrt_mul (sq_nonneg _), Real.sqrt_sq (by positivity)]
  have hq : Real.sqrt ((q.x - p.x) ^ 2 + (q.y - p.y) ^ 2) = getDistance p q := by
    rw [getDistance_comm p q, getDistance_eval]
  rw [hq]
  field_simp

/-- The point at distance `r` from `p` towards `q` is at distance
`getDistance p q - r` from `q`, provided `r` does not overshoot. -/
theorem getDistance_getPointAtDistance_other (p q : Point) (r : ℝ) (hpq : p ≠ q) (hr0 : 0 ≤ r)
    (hrL : r ≤ getDistance p q) :
    getDistance q (getPointAtDistance p q r) = getDistance p q - r := by
  have hL : 0 < getDistance p q := getDistance_pos p q hpq
  have ht1 : r / getDistance p q ≤ 1 := (div_le_one hL).mpr hrL
  rw [getPointAtDistance_eval, getDistance_eval]
  dsimp only
  rw [show (q.x - (p.x + r / getDistance p q * (q.x - p.x))) ^ 2 +
      (q.y - (p.y + r / getDistance p q * (q.y - p.y))) ^ 2 =
      (1 - r / getDistance p q) ^ 2 * ((q.x - p.x) ^ 2 + (q.y - p.y) ^ 2) by ring]
  rw [Real.sqrt_mul (sq_nonneg _), Real.sqrt_sq (by linarith)]
  have hq : Real.sqrt ((q.x - p.x) ^ 2 + (q.y - p.y) ^ 2) = getDistance p q := by
    rw [getDistance_comm p q, getDistance_eval]
  rw [hq]
  field_simp

theorem polyLength_nonneg : ∀ l : List Point, 0 ≤ polyLength l := by
  intro l
  induction l with
  | nil => exact le_refl _
  | cons p rest ih =>
    cases rest with
    | nil => exact le_refl _
    | cons q rest' =>
      unfold polyLength
      exact add_nonneg (getDistance_nonneg p q) ih

theorem polyLength_cons_cons (p q : Point) (rest : List Point) :
    polyLength (p :: q :: rest) = getDistance p q + polyLength (q :: rest) := rfl

theorem splitWalk_nil (half : ℝ) (cur : Point) (pd : ℝ) (middleAdded : Bool) :
    splitWalk half cur [] pd middleAdded = ([], []) := rfl

theorem splitWalk_cons_lt (half : ℝ) (cur next : Point) (rest : List Point) (pd : ℝ)
    (middleAdded : Bool) (h : pd + getDistance cur next < half) :
    splitWalk half cur (next :: rest) pd middleAdded =
      (next :: (splitWalk half next rest (pd + getDistance cur next) middleAdded).1,
        (splitWalk half next rest (pd + getDistance cur next) middleAdded).2) := by
  simp only [splitWalk]
  rw [if_pos h]

theorem splitWalk_cons_ge_added (half : ℝ) (cur next : Point) (rest : List Point) (pd : ℝ)
    (h : ¬pd + getDistance cur next < half) :
    splitWalk half cur (next :: rest) pd true =
      ((splitWalk half next rest (pd + getDistance cur next) true).1,
        next :: (splitWalk half next rest (pd + getDistance cur next) true).2) := by
  simp only [splitWalk]
  rw [if_neg h]
  rfl

theorem splitWalk_cons_ge_new (half : ℝ) (cur next : Point) (rest : List Point) (pd : ℝ)
    (h : ¬pd + getDistance cur next < half) :
    splitWalk half cur (next :: rest) pd false =
      (getPointAtDistance next cur (pd + getDistance cur next - half) ::
          (splitWalk half next rest (pd + getDistance cur next) true).1,
        getPointAtDistance next cur (pd + getDistance cur next - half) ::
          next :: (splitWalk half next rest (pd + getDistance cur next) true).2) := by
  simp only [splitWalk]
  rw [if_neg h]
  rfl

/-- Once the split point has been emitted the walk puts every remaining
point on half-edge 2 (the partial distance only grows). -/
theorem splitWalk_after (half : ℝ) :
    ∀ (rest : List Point) (cur : Point) (pd : ℝ), half ≤ pd →
      splitWalk half cur rest pd true = ([], rest) := by
  intro rest
  induction rest with
  | nil =>
    intro cur pd _
    rfl
  | cons next rest' ih =>
    intro cur pd hpd
    have hge : ¬pd + getDistance cur next < half := by
      have := getDistance_nonneg cur next
      linarith
    rw [splitWalk_cons_ge_added half cur next rest' pd hge,
      ih next (pd + getDistance cur next) (by
        have := getDistance_nonneg cur next
        linarith)]

/-- The bend walk splits the chain at cumulative distance `half`: half-edge 1
takes the points before the split plus the interpolated split point, and the
(not yet reversed) half-edge 2 is the split point followed by the remaining
points; the length walked along half-edge 1 is exactly `half - pd`. -/
theorem splitWalk_spec (half : ℝ) :
    ∀ (rest : List Point) (cur : Point) (pd : ℝ),
      pd < half →
      half ≤ pd + polyLength (cur :: rest) →
      List.Chain' (· ≠ ·) (cur :: rest) →
      ∃ k m, k < rest.length ∧
        (splitWalk half cur rest pd false).1 = rest.take k ++ [m] ∧
        (splitWalk half cur rest pd false).2 = m :: rest.drop k ∧
        polyLength (cur :: (splitWalk half cur rest pd false).1) = half - pd := by
  intro rest
  induction rest with
  | nil =>
    intro cur pd hpd hreach _
    exfalso
    simp [polyLength] at hreach
    linarith
  | cons next rest' ih =>
    intro cur pd hpd hreach hchain
    have hne : cur ≠ next := (List.chain'_cons.mp hchain).1
    have hchain2 : List.Chain' (· ≠ ·) (next :: rest') := (List.chain'_cons.mp hchain).2
    have hdp : 0 < getDistance cur next := getDistance_pos cur next hne
    by_cases hlt : pd + getDistance cur next < half
    · rw [splitWalk_cons_lt half cur next rest' pd false hlt]
      have hreach2 : half ≤ (pd + getDistance cur next) + polyLength (next :: rest') := by
        rw [polyLength_cons_cons] at hreach
        linarith
      obtain ⟨k, m, hk, h1, h2, hlen⟩ := ih next (pd + getDistance cur next) hlt hreach2 hchain2
      refine ⟨k + 1, m, by simpa using hk, ?_, ?_, ?_⟩
      · rw [List.take_succ_cons, h1]
        rfl
      · rw [List.drop_succ_cons, h2]
      · rw [polyLength_cons_cons, hlen]
        ring
    · rw [splitWalk_cons_ge_new half cur next rest' pd hlt]
      have hafter := splitWalk_after half rest' next (pd + getDistance cur next) (not_lt.mp hlt)
      rw [hafter]
      have hr0 : 0 ≤ pd + getDistance cur next - half := by linarith [not_lt.mp hlt]
      have hrL : pd + getDistance cur next - half ≤ getDistance next cur := by
        rw [getDistance_comm next cur]
        linarith
      refine ⟨0, getPointAtDistance next cur (pd + getDistance cur next - half), by simp,
        rfl, rfl, ?_⟩
      rw [show polyLength (cur :: [getPointAtDistance next cur
          (pd + getDistance cur next - half)]) =
        getDistance cur (getPointAtDistance next cur (pd + getDistance cur next - half)) from by
          rw [polyLength_cons_cons]
          simp [polyLength]]
      rw [getDistance_getPointAtDistance_other next cur (pd + getDistance cur next - half)
        (Ne.symm hne) hr0 hrL]
      rw [getDistance_comm next cur]
      ring

/-- The bend branch of `getEdgePoints`, written via the split walk. -/
theorem getEdgePoints_some (edgeStart1 : Point) (edgeFork1 : Option Point) (edgeEnd1 : Point)
    (edgeStart2 : Point) (edgeFork2 : Option Point) (edgeEnd2 : Point)
    (bps : List PointMetadata) :
    getEdgePoints edgeStart1 edgeFork1 edgeEnd1 edgeStart2 edgeFork2 edgeEnd2 (some bps) =
      (edgeStart1 ::
          (splitWalk (polyLength (edgeStart1 :: (bps.map toPoint ++ [edgeStart2])) / 2) edgeStart1
            (bps.map toPoint ++ [edgeStart2]) 0 false).1,
        (splitWalk (polyLength (edgeStart1 :: (bps.map toPoint ++ [edgeStart2])) / 2) edgeStart1
          (bps.map toPoint ++ [edgeStart2]) 0 false).2.reverse) := rfl

/-- Claim C1: with a non-empty bend-point list, `getEdgePoints` splits the
ordered chain (start1, bends…, start2) at half its total length: half-edge 1
is a prefix of the chain followed by the interpolated split point, the
reversal of half-edge 2 is the split point followed by the rest of the
chain (so their concatenation reproduces the chain with the split point
inserted), and the length walked along half-edge 1 is exactly half the total
polyline length; concretely for start1 = (0,0), start2 = (1000,0) and
bend = [(100,0)] the halves are [(0,0), (100,0), (500,0)] and
[(1000,0), (500,0)]. -/
theorem edgePoints_bend_split :
    (∀ (edgeStart1 edgeStart2 edgeEnd1 edgeEnd2 : Point) (edgeFork1 edgeFork2 : Option Point)
      (bps : List PointMetadata),
      bps ≠ [] →
      List.Chain' (· ≠ ·) (edgeStart1 :: (bps.map toPoint ++ [edgeStart2])) →
      ∃ k m, 0 < k ∧ k < (edgeStart1 :: (bps.map toPoint ++ [edgeStart2])).length ∧
        (getEdgePoints edgeStart1 edgeFork1 edgeEnd1 edgeStart2 edgeFork2 edgeEnd2
            (some bps)).1 =
          (edgeStart1 :: (bps.map toPoint ++ [edgeStart2])).take k ++ [m] ∧
        (getEdgePoints edgeStart1 edgeFork1 edgeEnd1 edgeStart2 edgeFork2 edgeEnd2
            (some bps)).2.reverse =
          m :: (edgeStart1 :: (bps.map toPoint ++ [edgeStart2])).drop k ∧
        polyLength (getEdgePoints edgeStart1 edgeFork1 edgeEnd1 edgeStart2 edgeFork2 edgeEnd2
            (some bps)).1 =
          polyLength (edgeStart1 :: (bps.map toPoint ++ [edgeStart2])) / 2) ∧
    (∀ (edgeFork1 edgeFork2 : Option Point) (edgeEnd1 edgeEnd2 : Point),
      getEdgePoints ⟨0, 0⟩ edgeFork1 edgeEnd1 ⟨1000, 0⟩ edgeFork2 edgeEnd2 (some [⟨100, 0⟩]) =
        ([⟨0, 0⟩, ⟨100, 0⟩, ⟨500, 0⟩], [⟨1000, 0⟩, ⟨500, 0⟩])) := by
  constructor
  · intro s1 s2 e1 e2 f1 f2 bps hne hchain
    have hd0 : 0 < polyLength (s1 :: (bps.map toPoint ++ [s2])) := by
      cases bps with
      | nil => exact absurd rfl hne
      | cons b bs =>
        have hne1 : s1 ≠ toPoint b := (List.chain'_cons.mp (by simpa using hchain)).1
        have h1 : 0 < getDistance s1 (toPoint b) := getDistance_pos _ _ hne1
        have h2 := polyLength_nonneg (toPoint b :: (bs.map toPoint ++ [s2]))
        calc (0 : ℝ) < getDistance s1 (toPoint b) + polyLength
              (toPoint b :: (bs.map toPoint ++ [s2])) := by linarith
          _ = polyLength (s1 :: ((b :: bs).map toPoint ++ [s2])) := by
              rw [List.map_cons]
              rfl
    obtain ⟨k, m, hk, h1, h2, hlen⟩ :=
      splitWalk_spec (polyLength (s1 :: (bps.map toPoint ++ [s2])) / 2)
        (bps.map toPoint ++ [s2]) s1 0
        (by linarith)
        (by
          have := polyLength_nonneg (s1 :: (bps.map toPoint ++ [s2]))
          simp only [zero_add]
          linarith)
        (by simpa using hchain)
    refine ⟨k + 1, m, Nat.succ_pos _, ?_, ?_, ?_, ?_⟩
    · simp only [List.length_cons]
      omega
    · rw [getEdgePoints_some, List.take_succ_cons]
      show s1 :: (splitWalk _ s1 _ 0 false).1 = (s1 :: (bps.map toPoint ++ [s2]).take k) ++ [m]
      rw [h1]
      rfl
    · rw [getEdgePoints_some]
      show ((splitWalk _ s1 _ 0 false).2.reverse).reverse = _
      rw [List.reverse_reverse, h2, List.drop_succ_cons]
    · rw [getEdgePoints_some]
      show polyLength (s1 :: (splitWalk _ s1 _ 0 false).1) = _
      rw [hlen]
      ring
  · intro f1 f2 e1 e2
    have hda : getDistance ⟨0, 0⟩ ⟨100, 0⟩ = 100 := by
      rw [getDistance_eval]
      dsimp only
      rw [show ((0 : ℝ) - 100) ^ 2 + ((0 : ℝ) - 0) ^ 2 = 100 ^ 2 by norm_num]
      exact Real.sqrt_sq (by norm_num)
    have hdb : getDistance ⟨100, 0⟩ ⟨1000, 0⟩ = 900 := by
      rw [getDistance_eval]
      dsimp only
      rw [show ((100 : ℝ) - 1000) ^ 2 + ((0 : ℝ) - 0) ^ 2 = 900 ^ 2 by norm_num]
      exact Real.sqrt_sq (by norm_num)
    have hdb2 : getDistance ⟨1000, 0⟩ ⟨100, 0⟩ = 900 := by
      rw [getDistance_comm]
      exact hdb
    have hdist : polyLength ((⟨0, 0⟩ : Point) :: ([(⟨100, 0⟩ : PointMetadata)].map toPoint ++ [(⟨1000, 0⟩ : Point)])) = 1000 := by
      show polyLength [(⟨0, 0⟩ : Point), ⟨100, 0⟩, ⟨1000, 0⟩] = 1000
      rw [polyLength_cons_cons, polyLength_cons_cons, hda, hdb]
      show (100 : ℝ) + (900 + 0) = 1000
      norm_num
    rw [getEdgePoints_some, hdist]
    rw [show (1000 : ℝ) / 2 = 500 by norm_num]
    show ((⟨0, 0⟩ : Point) :: (splitWalk 500 ⟨0, 0⟩ [⟨100, 0⟩, ⟨1000, 0⟩] 0 false).1,
      (splitWalk 500 (⟨0, 0⟩ : Point) [⟨100, 0⟩, ⟨1000, 0⟩] 0 false).2.reverse) = _
    rw [splitWalk_cons_lt 500 ⟨0, 0⟩ ⟨100, 0⟩ [⟨1000, 0⟩] 0 false (by rw [hda]; norm_num)]
    rw [show (0 : ℝ) + getDistance ⟨0, 0⟩ ⟨100, 0⟩ = 100 by rw [hda]; ring]
    rw [splitWalk_cons_ge_new 500 ⟨100, 0⟩ ⟨1000, 0⟩ [] 100 (by rw [hdb]; norm_num)]
    rw [show (100 : ℝ) + getDistance ⟨100, 0⟩ ⟨1000, 0⟩ = 1000 by rw [hdb]; ring]
    rw [splitWalk_nil]
    have hmid : getPointAtDistance ⟨1000, 0⟩ ⟨100, 0⟩ ((1000 : ℝ) - 500) = ⟨500, 0⟩ := by
      rw [getPointAtDistance_eval, hdb2]
      rw [Point.mk.injEq]
      dsimp only
      norm_num
    rw [hmid]
    rfl

/-- Witness for claim C1's theorem: the general split statement applied to
the concrete chain (0,0), (100,0), (1000,0), whose consecutive points are
pairwise distinct. -/
theorem edgePoints_bend_split_witness :
    ∃ k m, 0 < k ∧
      k < ((⟨0, 0⟩ : Point) :: ([(⟨100, 0⟩ : PointMetadata)].map toPoint ++ [(⟨1000, 0⟩ : Point)])).length ∧
      (getEdgePoints ⟨0, 0⟩ none ⟨0, 0⟩ ⟨1000, 0⟩ none ⟨0, 0⟩ (some [⟨100, 0⟩])).1 =
        ((⟨0, 0⟩ : Point) :: ([(⟨100, 0⟩ : PointMetadata)].map toPoint ++ [(⟨1000, 0⟩ : Point)])).take k ++ [m] ∧
      (getEdgePoints ⟨0, 0⟩ none ⟨0, 0⟩ ⟨1000, 0⟩ none ⟨0, 0⟩ (some [⟨100, 0⟩])).2.reverse =
        m :: ((⟨0, 0⟩ : Point) :: ([(⟨100, 0⟩ : PointMetadata)].map toPoint ++ [(⟨1000, 0⟩ : Point)])).drop k ∧
      polyLength (getEdgePoints ⟨0, 0⟩ none ⟨0, 0⟩ ⟨1000, 0⟩ none ⟨0, 0⟩ (some [⟨100, 0⟩])).1 =
        polyLength ((⟨0, 0⟩ : Point) :: ([(⟨100, 0⟩ : PointMetadata)].map toPoint ++ [(⟨1000, 0⟩ : Point)])) / 2 :=
  edgePoints_bend_split.1 ⟨0, 0⟩ ⟨1000, 0⟩ ⟨0, 0⟩ ⟨0, 0⟩ none none [⟨100, 0⟩]
    (by simp)
    (by
      show List.Chain' (· ≠ ·) [(⟨0, 0⟩ : Point), ⟨100, 0⟩, ⟨1000, 0⟩]
      simp only [List.chain'_cons, List.chain'_singleton, and_true]
      constructor
      · intro hc
        rw [Point.mk.injEq] at hc
        norm_num at hc
      · intro hc
        rw [Point.mk.injEq] at hc
        norm_num at hc)

end Nad
